import Mathlib

/-!
# VoxelEngine virtual filesystem: paths and the io facade

A shallow embedding of `src/io/path.hpp` and `src/io/io.cpp`.

* `std::string` is a list of `char` code units (`Str`).
* `size_t` offsets are natural numbers; `std::string::npos` is `none`.
* A C++ function that may throw returns `Except Error _`; a function that
  touches the device registry or a device takes and returns the `State`.
-/

namespace io

/-- A `std::string`: the sequence of its `char` code units. -/
abbrev Str := List Char

/-- The backslash character. -/
def backslash : Char := Char.ofNat 92

/-- Model of `std::string::find(c)`: offset of the first occurrence of `c`, `none` for `npos`. -/
def find : Str → Char → Option Nat
  | [], _ => none
  | x :: xs, c => if x = c then some 0 else (find xs c).map (fun i => i + 1)

/-- Model of `std::string::rfind(c)`: offset of the last occurrence of `c`, `none` for `npos`. -/
def rfind : Str → Char → Option Nat
  | [], _ => none
  | x :: xs, c =>
    match rfind xs c with
    | some i => some (i + 1)
    | none => if x = c then some 0 else none

/-- Model of `std::string::substr(pos, count)`; a `count` of `npos` (`none`) runs to the end.
Every call in `path.hpp` has `pos` at most the length, so `std::out_of_range`
does not arise. -/
def substr (s : Str) (pos : Nat) (count : Option Nat) : Str :=
  match count with
  | none => s.drop pos
  | some n => (s.drop pos).take n

/-- Member `operator<` of `std::string`: lexicographic order on the code units. -/
def strLt : Str → Str → Bool
  | _, [] => false
  | [], _ :: _ => true
  | x :: xs, y :: ys =>
    if x.toNat < y.toNat then true
    else if y.toNat < x.toNat then false
    else strLt xs ys

/-- What the C++ code can throw. -/
inductive Error where
  /-- A `std::runtime_error(what)` thrown in `io.cpp`. -/
  | runtime_error (what : Str)
  /-- The failure of `path::checkValid` on the stored string. -/
  | invalid_path (str : Str)
  /-- A failure reported by a device backend. -/
  | device_error (what : Str)
deriving DecidableEq, Repr

deriving instance DecidableEq for Except

/-- The class `io::path`: the stored string and the precalculated colon offset. -/
structure path where
  str : Str
  colonPos : Option Nat
deriving DecidableEq, Repr

namespace path

/-- The loop of the constructor on one character: a backslash becomes a slash. -/
def normChar (c : Char) : Char := if c = backslash then '/' else c

/-- The default constructor `path()`: empty string, `colonPos = npos`. -/
def path0 : path := { str := [], colonPos := none }

/-- The constructor `path(std::string str)`: `colonPos` is found first, then every
backslash of the stored string is replaced by a slash. -/
def new (s : Str) : path := { str := s.map normChar, colonPos := find s ':' }

/-- Literal constructor `path(const char*)`. -/
def lit (s : String) : io.path := new s.toList

/-- Member `operator==(const path&)`. -/
def eq (p other : io.path) : Bool := p.str == other.str

/-- Member `operator<(const path&)`. -/
def lt (p other : io.path) : Bool := strLt p.str other.str

/-- Modelled from the spec: `path::checkValid` is declared in `path.hpp` and defined
outside the sources; a path with no colon is invalid for entry-point extraction. -/
def checkValid (p : io.path) : Except Error Unit :=
  match p.colonPos with
  | none => .error (.invalid_path p.str)
  | some _ => .ok ()

/-- Modelled from the spec: `path::emptyOrInvalid` is used by `io.cpp` and defined
outside the sources; a path is unusable as an address when it is empty or has no colon. -/
def emptyOrInvalid (p : io.path) : Bool := p.str.isEmpty || p.colonPos.isNone

/-- Member `path::pathPart()`. -/
def pathPart (p : io.path) : Str :=
  match p.colonPos with
  | none => p.str
  | some c => substr p.str (c + 1) none

/-- Member `path::name()`. -/
def name (p : io.path) : Str :=
  match rfind p.str '/' with
  | none =>
    match p.colonPos with
    | none => p.str
    | some c => substr p.str (c + 1) none
  | some slashpos => substr p.str (slashpos + 1) none

/-- Member `path::stem()`. -/
def stem (p : io.path) : Str := substr p.name 0 (rfind p.name '.')

/-- Member `path::extension()`. -/
def extension (p : io.path) : Str :=
  match rfind p.str '.' with
  | none => []
  | some dotpos =>
    match rfind p.str '/' with
    | none => substr p.str dotpos none
    | some slashpos => if dotpos < slashpos then [] else substr p.str dotpos none

/-- Member `path::entryPoint()`. -/
def entryPoint (p : io.path) : Except Error Str :=
  match checkValid p with
  | .error e => .error e
  | .ok _ => .ok (substr p.str 0 p.colonPos)

/-- Member `path::parent()`. -/
def parent (p : io.path) : io.path :=
  match rfind p.str '/' with
  | none =>
    match p.colonPos with
    | none => path0
    | some c => new (substr p.str 0 (some c))
  | some slashpos =>
    match p.colonPos with
    | none => new (substr p.str 0 (some slashpos))
    | some c => new (substr p.str 0 (some c) ++ substr p.str slashpos none)

/-- Member `path::string()`. -/
def string (p : io.path) : Str := p.str

/-- Member `path::empty()`. -/
def empty (p : io.path) : Bool := p.str.isEmpty

end path

/-- Modelled from the spec: the device capability contract (`devices/Device.hpp` is not
among the sources). The storage the backends act on has type `σ`; the queries answer
a boolean, `size` and `read` answer a value or a backend failure, and the mutating
operations also return the storage they leave behind. `read p n` is the content of
the caller's buffer of `n` bytes after the call. -/
structure Device (σ : Type) where
  resolve : Str → σ → Str
  write : Str → List Char → σ → Except Error Unit × σ
  read : Str → Nat → σ → Except Error (List Char)
  size : Str → σ → Except Error Nat
  exists_ : Str → σ → Bool
  isdir : Str → σ → Bool
  isfile : Str → σ → Bool
  mkdirs : Str → σ → Except Error Unit × σ
  remove : Str → σ → Except Error Bool × σ
  removeAll : Str → σ → Except Error Nat × σ

/-- One call of a device operation, with the relative path it was given. -/
inductive Call where
  | resolve (p : Str)
  | write (p : Str) (data : List Char)
  | read (p : Str) (n : Nat)
  | size (p : Str)
  | exists_ (p : Str)
  | isdir (p : Str)
  | isfile (p : Str)
  | mkdirs (p : Str)
  | remove (p : Str)
  | removeAll (p : Str)
deriving DecidableEq, Repr

/-- The process state the facade works on: the static map `devices` of `io.cpp`
(a `std::shared_ptr` is `none` when null), the backend storage, and the device
operations invoked so far. -/
structure State (σ : Type) where
  devices : Str → Option (Option (Device σ))
  store : σ
  calls : List Call

variable {σ : Type}

/-- Record a device call. -/
def State.log (st : State σ) (c : Call) : State σ := { st with calls := st.calls ++ [c] }

/-- Function `io::set_device`: `devices[name] = device`. -/
def set_device (name : Str) (device : Option (Device σ)) (st : State σ) : State σ :=
  { st with devices := fun n => if n = name then some device else st.devices n }

/-- Function `io::remove_device`: `devices.erase(name)`. -/
def remove_device (name : Str) (st : State σ) : State σ :=
  { st with devices := fun n => if n = name then none else st.devices n }

/-- Function `io::get_device`. -/
def get_device (st : State σ) (name : Str) : Option (Device σ) :=
  match st.devices name with
  | none => none
  | some found => found

/-- The error of `io::require_device`. -/
def device_not_found (name : Str) : Error :=
  .runtime_error ("io-device not found: ".toList ++ name)

/-- Function `io::require_device`. -/
def require_device (st : State σ) (name : Str) : Except Error (Device σ) :=
  match get_device st name with
  | none => .error (device_not_found name)
  | some device => .ok device

/-- Function `io::write_bytes`; `data` is the buffer of `size` bytes. -/
def write_bytes (filename : path) (data : List Char) (st : State σ) :
    Except Error Bool × State σ :=
  match filename.entryPoint with
  | .error e => (.error e, st)
  | .ok ep =>
    match get_device st ep with
    | none => (.ok false, st)
    | some device =>
      let r := device.write filename.pathPart data st.store
      let st1 := { st.log (.write filename.pathPart data) with store := r.2 }
      match r.1 with
      | .error e => (.error e, st1)
      | .ok _ => (.ok true, st1)

/-- Function `io::read_bytes(filename, length)`: the buffer and the `length` written back. -/
def read_bytes (filename : path) (st : State σ) :
    Except Error (List Char × Nat) × State σ :=
  match filename.entryPoint with
  | .error e => (.error e, st)
  | .ok ep =>
    match require_device st ep with
    | .error e => (.error e, st)
    | .ok device =>
      let st1 := st.log (.size filename.pathPart)
      match device.size filename.pathPart st.store with
      | .error e => (.error e, st1)
      | .ok length =>
        let st2 := st1.log (.read filename.pathPart length)
        match device.read filename.pathPart length st.store with
        | .error e => (.error e, st2)
        | .ok data => (.ok (data, length), st2)

/-- Function `io::read_bytes(filename)`, the `std::vector` overload. -/
def read_bytes_vector (filename : path) (st : State σ) :
    Except Error (List Char) × State σ :=
  match filename.entryPoint with
  | .error e => (.error e, st)
  | .ok ep =>
    match require_device st ep with
    | .error e => (.error e, st)
    | .ok device =>
      let st1 := st.log (.size filename.pathPart)
      match device.size filename.pathPart st.store with
      | .error e => (.error e, st1)
      | .ok length =>
        let st2 := st1.log (.read filename.pathPart length)
        match device.read filename.pathPart length st.store with
        | .error e => (.error e, st2)
        | .ok data => (.ok data, st2)

/-- Function `io::read_string`. -/
def read_string (filename : path) (st : State σ) : Except Error Str × State σ :=
  match read_bytes filename st with
  | (.error e, st1) => (.error e, st1)
  | (.ok (bytes, size), st1) => (.ok (bytes.take size), st1)

/-- Function `io::write_string`. -/
def write_string (file : path) (content : Str) (st : State σ) :
    Except Error Bool × State σ :=
  write_bytes file content st

/-- Function `io::is_regular_file`. -/
def is_regular_file (file : path) (st : State σ) : Except Error Bool × State σ :=
  if file.emptyOrInvalid then (.ok false, st)
  else
    match file.entryPoint with
    | .error e => (.error e, st)
    | .ok ep =>
      match get_device st ep with
      | none => (.ok false, st)
      | some device =>
        (.ok (device.isfile file.pathPart st.store), st.log (.isfile file.pathPart))

/-- Function `io::is_directory`. -/
def is_directory (file : path) (st : State σ) : Except Error Bool × State σ :=
  if file.emptyOrInvalid then (.ok false, st)
  else
    match file.entryPoint with
    | .error e => (.error e, st)
    | .ok ep =>
      match get_device st ep with
      | none => (.ok false, st)
      | some device =>
        (.ok (device.isdir file.pathPart st.store), st.log (.isdir file.pathPart))

/-- Function `io::exists`. -/
def exists_ (file : path) (st : State σ) : Except Error Bool × State σ :=
  if file.emptyOrInvalid then (.ok false, st)
  else
    match file.entryPoint with
    | .error e => (.error e, st)
    | .ok ep =>
      match get_device st ep with
      | none => (.ok false, st)
      | some device =>
        (.ok (device.exists_ file.pathPart st.store), st.log (.exists_ file.pathPart))

/-- Function `io::create_directories`. -/
def create_directories (file : path) (st : State σ) : Except Error Bool × State σ :=
  match file.entryPoint with
  | .error e => (.error e, st)
  | .ok ep =>
    match require_device st ep with
    | .error e => (.error e, st)
    | .ok device =>
      let st1 := st.log (.isdir file.pathPart)
      if device.isdir file.pathPart st.store then (.ok false, st1)
      else
        let r := device.mkdirs file.pathPart st.store
        let st2 := { st1.log (.mkdirs file.pathPart) with store := r.2 }
        match r.1 with
        | .error e => (.error e, st2)
        | .ok _ => (.ok true, st2)

/-- Function `io::remove`. -/
def remove (file : path) (st : State σ) : Except Error Bool × State σ :=
  match file.entryPoint with
  | .error e => (.error e, st)
  | .ok ep =>
    match require_device st ep with
    | .error e => (.error e, st)
    | .ok device =>
      let r := device.remove file.pathPart st.store
      (r.1, { st.log (.remove file.pathPart) with store := r.2 })

/-- Function `io::remove_all`. -/
def remove_all (file : path) (st : State σ) : Except Error Nat × State σ :=
  match file.entryPoint with
  | .error e => (.error e, st)
  | .ok ep =>
    match require_device st ep with
    | .error e => (.error e, st)
    | .ok device =>
      let r := device.removeAll file.pathPart st.store
      (r.1, { st.log (.removeAll file.pathPart) with store := r.2 })

/-- Function `io::file_size`. -/
def file_size (file : path) (st : State σ) : Except Error Nat × State σ :=
  match file.entryPoint with
  | .error e => (.error e, st)
  | .ok ep =>
    match require_device st ep with
    | .error e => (.error e, st)
    | .ok device =>
      (device.size file.pathPart st.store, st.log (.size file.pathPart))

/-- Function `io::resolve`; the empty native path is the empty string. -/
def resolve (file : path) (st : State σ) : Except Error Str × State σ :=
  match file.entryPoint with
  | .error e => (.error e, st)
  | .ok ep =>
    match get_device st ep with
    | none => (.ok [], st)
    | some device =>
      (.ok (device.resolve file.pathPart st.store), st.log (.resolve file.pathPart))

/-- A device over an in-memory file table, used to evaluate the facade on concrete
inputs: the storage lists the files with their contents. -/
def tableDevice : Device (List (Str × List Char)) where
  resolve := fun p _ => "/mnt/".toList ++ p
  write := fun p d t => (.ok (), (p, d) :: t.filter (fun e => e.1 ≠ p))
  read := fun p n t =>
    match t.lookup p with
    | none => .error (.device_error p)
    | some d => .ok (d.take n)
  size := fun p t =>
    match t.lookup p with
    | none => .error (.device_error p)
    | some d => .ok d.length
  exists_ := fun p t => (t.lookup p).isSome
  isdir := fun _ _ => false
  isfile := fun p t => (t.lookup p).isSome
  mkdirs := fun _ t => (.ok (), t)
  remove := fun p t => (.ok (t.lookup p).isSome, t.filter (fun e => e.1 ≠ p))
  removeAll := fun p t =>
    (.ok (t.filter (fun e => e.1 = p)).length, t.filter (fun e => e.1 ≠ p))

/-- A state with no device mounted and one stored file. -/
def state0 : State (List (Str × List Char)) :=
  { devices := fun _ => none, store := [("a.txt".toList, "hello".toList)], calls := [] }

/-- The state `state0` after mounting the table device as `res`. -/
def state1 : State (List (Str × List Char)) :=
  set_device "res".toList (some tableDevice) state0

/-- The string `s` with every backslash replaced by a slash, as the specification
words it. -/
def replaceBackslashes (s : Str) : Str := s.map (fun c => if c = backslash then '/' else c)

/-- Member `operator/` of `io::path` on a child string (the `const char*`,
`std::string` and `std::string_view` overloads have the same body); the returned
string is converted to a path by the string constructor. -/
def path.div (p : path) (child : Str) : path :=
  if p.str.isEmpty || p.str.getLast? == some ':' then path.new (p.str ++ child)
  else path.new (p.str ++ "/".toList ++ child)

/-- Member `operator/` of `io::path` on a child path: the child's path part is joined. -/
def path.div_path (p child : path) : path :=
  if p.str.isEmpty || p.str.getLast? == some ':' then path.new (p.str ++ child.pathPart)
  else path.new (p.str ++ "/".toList ++ child.pathPart)

/-- Modelled from the spec: the class `io::SubDevice` (`devices/Device.hpp` is not among
the sources). A sub-device holds its parent device and a fixed root prefix; every
relative path it receives is rewritten to `root/relative_path` and forwarded to the
parent. -/
def SubDevice (parent : Device σ) (root : Str) : Device σ where
  resolve := fun p s => parent.resolve (root ++ "/".toList ++ p) s
  write := fun p d s => parent.write (root ++ "/".toList ++ p) d s
  read := fun p n s => parent.read (root ++ "/".toList ++ p) n s
  size := fun p s => parent.size (root ++ "/".toList ++ p) s
  exists_ := fun p s => parent.exists_ (root ++ "/".toList ++ p) s
  isdir := fun p s => parent.isdir (root ++ "/".toList ++ p) s
  isfile := fun p s => parent.isfile (root ++ "/".toList ++ p) s
  mkdirs := fun p s => parent.mkdirs (root ++ "/".toList ++ p) s
  remove := fun p s => parent.remove (root ++ "/".toList ++ p) s
  removeAll := fun p s => parent.removeAll (root ++ "/".toList ++ p) s

/-- The error thrown by `io::create_subdevice` when the parent is not mounted. -/
def parent_device_not_found (parent : Str) : Error :=
  .runtime_error ("parent device not found for entry-point: ".toList ++ parent)

/-- Function `io::create_subdevice`. -/
def create_subdevice (name parent : Str) (root : path) (st : State σ) :
    Except Error Unit × State σ :=
  match get_device st parent with
  | none => (.error (parent_device_not_found parent), st)
  | some parentDevice =>
    (.ok (), set_device name (some (SubDevice parentDevice root.pathPart)) st)

/-- Modelled from the spec: the class `parsing_error` (`coders/commons.hpp` is not among
the sources): the parse failure of a decoder, carrying its human-readable log. -/
structure parsing_error where
  errorLog : Str
deriving DecidableEq, Repr

/-- The type `DecodeFunc` of `io.cpp`: a decoder takes the source name and the text and
returns a structured value of type `V`, or fails with a parsing error. -/
abbrev DecodeFunc (V : Type) := Str → Str → Except parsing_error V

/-- The two decoders `json::parse` and `toml::parse`, which are defined outside the
sources. -/
structure Coders (V : Type) where
  json_parse : DecodeFunc V
  toml_parse : DecodeFunc V

variable {V : Type}

/-- The static table `data_decoders` of `io.cpp`. Its keys are `fs::path` values made of
one file name, for which path comparison is comparison of the strings. -/
def data_decoders (c : Coders V) : List (Str × DecodeFunc V) :=
  [(".json".toList, c.json_parse), (".toml".toList, c.toml_parse)]

/-- The call `data_decoders.find(ext)`; `none` stands for `data_decoders.end()`. -/
def data_decoders_find (c : Coders V) (ext : Str) : Option (DecodeFunc V) :=
  (data_decoders c).lookup ext

/-- Function `io::is_data_interchange_format`. -/
def is_data_interchange_format (c : Coders V) (ext : Str) : Bool :=
  (data_decoders_find c ext).isSome

/-- Function `io::is_data_file`. -/
def is_data_file (c : Coders V) (file : path) : Bool :=
  is_data_interchange_format c file.extension

/-- The error thrown by `io::read_object` on an extension with no decoder. -/
def unknown_file_format : Error := .runtime_error "unknown file format".toList

/-- Function `io::read_object`. -/
def read_object (c : Coders V) (file : path) (st : State σ) : Except Error V × State σ :=
  match data_decoders_find c file.extension with
  | none => (.error unknown_file_format, st)
  | some decode =>
    match read_string file st with
    | (.error e, st1) => (.error e, st1)
    | (.ok text, st1) =>
      match decode file.string text with
      | .ok v => (.ok v, st1)
      | .error err => (.error (.runtime_error err.errorLog), st1)

/-- The state with the table device mounted as `data`, holding two files. -/
def state2 : State (List (Str × List Char)) :=
  { devices := fun n => if n = "data".toList then some (some tableDevice) else none,
    store := [("profiles/user1/settings.json".toList, "abc".toList),
      ("profiles/user1/bad.toml".toList, "x".toList)],
    calls := [] }

/-- Toy decoders used to evaluate `read_object` on concrete inputs: the JSON decoder
accepts every text and returns it, the TOML decoder rejects every text. -/
def toyCoders : Coders Str where
  json_parse := fun _ text => .ok text
  toml_parse := fun name _ => .error { errorLog := "bad toml: ".toList ++ name }

end io

/-! # The particle emitter

A shallow embedding of `Emitter::update` and `Emitter::isDead` of
`src/graphics/render/Emitter.cpp`. The `float` values are exact rationals. An `int`
is an `Int`; the conversion of a quotient to `int` truncates towards zero and has no
defined result when the truncated value is outside the range of a 32-bit `int`. With
a positive count and a quotient that is not negative, `count - skipped` and `count--`
stay inside that range. -/

namespace render

/-- A `glm::vec3` with rational components. -/
abbrev vec3 := ℚ × ℚ × ℚ

/-- The constant `FLT_EPSILON`, two to the power of minus 23. -/
def FLT_EPSILON : ℚ := 1 / 8388608

/-- The call `glm::distance2(a, b)`: the squared distance. -/
def distance2 (a b : vec3) : ℚ :=
  (a.1 - b.1) * (a.1 - b.1) + (a.2.1 - b.2.1) * (a.2.1 - b.2.1)
    + (a.2.2 - b.2.2) * (a.2.2 - b.2.2)

/-- The least value of a 32-bit `int`. -/
def INT_MIN : Int := -2147483648

/-- The greatest value of a 32-bit `int`. -/
def INT_MAX : Int := 2147483647

/-- Truncation of a rational towards zero. -/
def trunc (q : ℚ) : Int := if 0 ≤ q then ⌊q⌋ else ⌈q⌉

/-- The conversion of a `float` to `int`: the truncated value when an `int` can hold
it; otherwise the behaviour of the C++ conversion is undefined and there is no
result (`none`). -/
def toInt (q : ℚ) : Option Int :=
  if INT_MIN ≤ trunc q ∧ trunc q ≤ INT_MAX then some (trunc q) else none

/-- The fields of a `Particle` that `Emitter::update` writes; `emitter` is the address
of the owning emitter. -/
structure Particle where
  emitter : Nat
  random : Nat
  position : vec3
  velocity : vec3
deriving DecidableEq

/-- The member `origin`: a fixed position or the id of an entity. -/
inductive Origin where
  | position (v : vec3)
  | entity (id : Nat)
deriving DecidableEq

/-- What the emitter draws on outside `Emitter.cpp`: the positions of the live
entities (`level.entities->get(id)`), the generator behind `random.rand32()`, which
maps its state to a value and the next state, and `glm::ballRand(1.0f)`, which does
the same on the global generator state. -/
structure World where
  entities : Nat → Option vec3
  rand32 : Nat → Nat × Nat
  ballRand : Nat → vec3 × Nat

/-- The members of `Emitter` that `update` reads or writes; `addr` is the address of
the emitter (`this`), `maxDistance` is `preset.maxDistance` and `random` is the state of the
member generator. -/
structure Emitter where
  addr : Nat
  origin : Origin
  prototype : Particle
  spawnInterval : ℚ
  count : Int
  maxDistance : ℚ
  timer : ℚ
  random : Nat
  explosion : vec3
deriving DecidableEq

/-- What a call of `update` works on: the emitter, the caller's particle vector and
the state of the global generator. -/
structure Sim where
  emitter : Emitter
  particles : List Particle
  glm : Nat
deriving DecidableEq

/-- How a call of `update` ends: it returns with the state `x`; or it runs into the
conversion of an out-of-range quotient to `int`, whose behaviour is undefined; or the
loop has not ended within the given number of iterations. -/
inductive Outcome where
  | done (x : Sim)
  | undefined
  | unfinished
deriving DecidableEq

/-- Function `Emitter::isDead`. -/
def isDead (e : Emitter) : Bool := e.count == 0

/-- The body of the `while` loop of `update`: spawn one particle at `position`. -/
def spawn (w : World) (position : vec3) (x : Sim) : Sim :=
  let r := w.rand32 x.emitter.random
  let b := w.ballRand x.glm
  let v := x.emitter.prototype.velocity
  let particle : Particle :=
    { emitter := x.emitter.addr
      random := r.1
      position := position
      velocity := (v.1 + b.1.1 * x.emitter.explosion.1,
        v.2.1 + b.1.2.1 * x.emitter.explosion.2.1,
        v.2.2 + b.1.2.2 * x.emitter.explosion.2.2) }
  { emitter :=
      { x.emitter with
        random := r.2
        timer := x.emitter.timer - x.emitter.spawnInterval
        count := if 0 < x.emitter.count then x.emitter.count - 1 else x.emitter.count }
    particles := x.particles ++ [particle]
    glm := b.2 }

/-- The loop `while (count && timer > spawnInterval)` of `update`, run for at most
`fuel` iterations; `none` when the loop has not ended by then. -/
def spawnLoop (w : World) (position : vec3) : Nat → Sim → Option Sim
  | 0, x =>
    if x.emitter.count ≠ 0 ∧ x.emitter.timer > x.emitter.spawnInterval then none
    else some x
  | fuel + 1, x =>
    if x.emitter.count ≠ 0 ∧ x.emitter.timer > x.emitter.spawnInterval then
      spawnLoop w position fuel (spawn w position x)
    else some x

/-- The position `update` computes from `origin`; an entity that is gone leaves
the zero vector. -/
def originPosition (w : World) (e : Emitter) : vec3 :=
  match e.origin with
  | .position staticPos => staticPos
  | .entity entityId =>
    match w.entities entityId with
    | some pos => pos
    | none => (0, 0, 0)

/-- Function `Emitter::update`, its loop run for at most `fuel` iterations. -/
def update (w : World) (fuel : Nat) (delta : ℚ) (cameraPosition : vec3) (x : Sim) :
    Outcome :=
  if x.emitter.count = 0 ∨ (x.emitter.count = -1 ∧ x.emitter.spawnInterval < FLT_EPSILON)
  then .done x
  else
    let position := originPosition w x.emitter
    if distance2 position cameraPosition > x.emitter.maxDistance * x.emitter.maxDistance then
      if 0 < x.emitter.count then
        if x.emitter.spawnInterval < FLT_EPSILON then
          .done { x with emitter := { x.emitter with count := 0 } }
        else
          match toInt (x.emitter.timer / x.emitter.spawnInterval) with
          | none => .undefined
          | some skipped =>
            .done { x with emitter :=
              { x.emitter with
                count := max 0 (x.emitter.count - skipped)
                timer := x.emitter.timer - skipped * x.emitter.spawnInterval } }
      else .done x
    else
      match spawnLoop w position fuel
          { x with emitter := { x.emitter with timer := x.emitter.timer + delta } } with
      | none => .unfinished
      | some y => .done y

/-- The emitter is within `maxDistance` of the camera: the negation of the distance
test of `update`. -/
def inRange (w : World) (cameraPosition : vec3) (e : Emitter) : Bool :=
  decide (¬ distance2 (originPosition w e) cameraPosition > e.maxDistance * e.maxDistance)

/-- A world with no entity and constant generators, used to evaluate `update`. -/
def world0 : World where
  entities := fun _ => none
  rand32 := fun s => (s, s + 1)
  ballRand := fun s => ((1, 0, 0), s + 1)

/-- An emitter at the origin with a budget of `count` particles, one per second. -/
def emitter0 (count : Int) (timer : ℚ) : Emitter where
  addr := 0
  origin := .position (0, 0, 0)
  prototype := { emitter := 0, random := 0, position := (0, 0, 0), velocity := (0, 0, 0) }
  spawnInterval := 1
  count := count
  maxDistance := 10
  timer := timer
  random := 0
  explosion := (0, 0, 0)

/-- The emitter `emitter0 count (1/4)` with an empty particle vector. -/
def sim0 (count : Int) : Sim := { emitter := emitter0 count (1 / 4), particles := [], glm := 0 }

/-- An emitter with a budget of 5 particles, one per second, whose timer has reached
2147483648 seconds (two to the power of 31), with an empty particle vector. -/
def sim1 : Sim := { emitter := emitter0 5 2147483648, particles := [], glm := 0 }

end render

namespace io

/-! ## Facts about the string primitives -/

theorem find_eq_none_of_not_mem (s : Str) (c : Char) (h : c ∉ s) : find s c = none := by
  induction s with
  | nil => rfl
  | cons x xs ih =>
    have hx : ¬ x = c := fun e => h (by simp [e])
    have hxs : c ∉ xs := fun m => h (List.mem_cons_of_mem _ m)
    simp [find, hx, ih hxs]

theorem find_append_cons (e r : Str) (c : Char) (h : c ∉ e) :
    find (e ++ c :: r) c = some e.length := by
  induction e with
  | nil => simp [find]
  | cons x xs ih =>
    have hx : ¬ x = c := fun e => h (by simp [e])
    have hxs : c ∉ xs := fun m => h (List.mem_cons_of_mem _ m)
    simp [find, hx, ih hxs]

theorem rfind_eq_none_of_not_mem (s : Str) (c : Char) (h : c ∉ s) : rfind s c = none := by
  induction s with
  | nil => rfl
  | cons x xs ih =>
    have hx : ¬ x = c := fun e => h (by simp [e])
    have hxs : c ∉ xs := fun m => h (List.mem_cons_of_mem _ m)
    simp [rfind, hx, ih hxs]

theorem rfind_append_cons (l r : Str) (c : Char) (h : c ∉ r) :
    rfind (l ++ c :: r) c = some l.length := by
  induction l with
  | nil => simp [rfind, rfind_eq_none_of_not_mem r c h]
  | cons x xs ih => simp [rfind, ih]

theorem normChar_of_ne (c : Char) (h : c ≠ backslash) : path.normChar c = c := by
  simp [path.normChar, h]

theorem map_normChar_of_not_mem (s : Str) (h : backslash ∉ s) : s.map path.normChar = s := by
  induction s with
  | nil => rfl
  | cons x xs ih =>
    have hx : x ≠ backslash := fun e => h (by simp [e])
    have hxs : backslash ∉ xs := fun m => h (List.mem_cons_of_mem _ m)
    simp [normChar_of_ne x hx, ih hxs]

theorem normChar_eq_colon (c : Char) : path.normChar c = ':' ↔ c = ':' := by
  unfold path.normChar
  by_cases h : c = backslash
  · subst h
    simp
    decide
  · simp [h]

theorem normChar_idem (c : Char) : path.normChar (path.normChar c) = path.normChar c := by
  unfold path.normChar
  by_cases h : c = backslash
  · simp [h]
  · simp [h]

theorem normChar_ne_backslash (c : Char) : path.normChar c ≠ backslash := by
  unfold path.normChar
  by_cases h : c = backslash
  · simp [h]
    decide
  · simp [h]

theorem colon_mem_map_normChar (s : Str) : ':' ∈ s.map path.normChar ↔ ':' ∈ s := by
  simp only [List.mem_map]
  constructor
  · rintro ⟨c, hc, h⟩
    rw [(normChar_eq_colon c).1 h] at hc
    exact hc
  · intro h
    exact ⟨':', h, (normChar_eq_colon ':').2 rfl⟩

theorem replaceBackslashes_eq (s : Str) : replaceBackslashes s = s.map path.normChar := rfl

theorem find_replaceBackslashes (s : Str) : find (replaceBackslashes s) ':' = find s ':' := by
  rw [replaceBackslashes_eq]
  induction s with
  | nil => rfl
  | cons x xs ih =>
    by_cases hx : x = ':'
    · simp [find, hx, (normChar_eq_colon ':').2 rfl]
    · have hn : ¬ path.normChar x = ':' := fun h => hx ((normChar_eq_colon x).1 h)
      simp [find, hx, hn, ih]

theorem strLt_irrefl (s : Str) : strLt s s = false := by
  induction s with
  | nil => rfl
  | cons x xs ih => simp [strLt, ih]

theorem entryPoint_new_of_split (e r : Str) (h : ':' ∉ e) :
    (path.new (e ++ ':' :: r)).entryPoint = .ok (e.map path.normChar) := by
  simp [path.entryPoint, path.checkValid, path.new, find_append_cons e r ':' h, substr,
    List.take_append_eq_append_take]

theorem pathPart_new_of_split (e r : Str) (h : ':' ∉ e) :
    (path.new (e ++ ':' :: r)).pathPart = r.map path.normChar := by
  have hdrop : List.drop ((e.map path.normChar).length + 1)
      (e.map path.normChar ++ path.normChar ':' :: r.map path.normChar)
      = r.map path.normChar := by
    rw [List.drop_append_eq_append_drop]
    simp
  simp only [path.pathPart, path.new, find_append_cons e r ':' h, substr, List.map_append,
    List.map_cons]
  simpa using hdrop

theorem pathPart_new_of_no_colon (s : Str) (h : ':' ∉ s) :
    (path.new s).pathPart = s.map path.normChar := by
  simp [path.pathPart, path.new, find_eq_none_of_not_mem s ':' h]

/-! ## The derived views of a path -/

/-- C1 (evaluation at the failing input): the parent of `res:textures/block.png` is
computed as the path `res/block.png`, which has lost the colon, so it is not
`res:textures`, its entry point cannot be extracted, and its path part is the
whole string rather than `textures`. -/
theorem parent_of_res_textures_block_png :
    (path.lit "res:textures/block.png").parent = path.lit "res/block.png" ∧
    (path.lit "res:textures/block.png").parent ≠ path.lit "res:textures" ∧
    (path.lit "res:textures/block.png").parent.entryPoint
      = .error (.invalid_path "res/block.png".toList) ∧
    (path.lit "res:textures/block.png").parent.pathPart = "res/block.png".toList := by
  decide

/-- C2: for a path built from `e:d/t.x`, with `e`, `t`, `x` non-empty and free of
colon, slash, backslash and dot, and `d` non-empty and free of colon, backslash and
dot, the entry point is `e`, the path part is `d/t.x`, the name is `t.x`, the stem
is `t` and the extension is `.x`. -/
theorem derived_views_of_full_address (e d t x : Str)
    (he : e ≠ [] ∧ ':' ∉ e ∧ '/' ∉ e ∧ backslash ∉ e ∧ '.' ∉ e)
    (ht : t ≠ [] ∧ ':' ∉ t ∧ '/' ∉ t ∧ backslash ∉ t ∧ '.' ∉ t)
    (hx : x ≠ [] ∧ ':' ∉ x ∧ '/' ∉ x ∧ backslash ∉ x ∧ '.' ∉ x)
    (hd : d ≠ [] ∧ ':' ∉ d ∧ backslash ∉ d ∧ '.' ∉ d) :
    (path.new (e ++ ':' :: (d ++ '/' :: (t ++ '.' :: x)))).entryPoint = .ok e ∧
    (path.new (e ++ ':' :: (d ++ '/' :: (t ++ '.' :: x)))).pathPart
      = d ++ '/' :: (t ++ '.' :: x) ∧
    (path.new (e ++ ':' :: (d ++ '/' :: (t ++ '.' :: x)))).name = t ++ '.' :: x ∧
    (path.new (e ++ ':' :: (d ++ '/' :: (t ++ '.' :: x)))).stem = t ∧
    (path.new (e ++ ':' :: (d ++ '/' :: (t ++ '.' :: x)))).extension = '.' :: x := by
  obtain ⟨_, he1, _, he3, _⟩ := he
  obtain ⟨_, _, ht2, ht3, ht4⟩ := ht
  obtain ⟨_, _, hx2, hx3, hx4⟩ := hx
  obtain ⟨_, _, hd3, _⟩ := hd
  have hb : backslash ∉ e ++ ':' :: (d ++ '/' :: (t ++ '.' :: x)) := by
    have h1 : backslash ≠ ':' := by decide
    have h2 : backslash ≠ '/' := by decide
    have h3 : backslash ≠ '.' := by decide
    simp [he3, hd3, ht3, hx3, h1, h2, h3]
  have hcolon : find (e ++ ':' :: (d ++ '/' :: (t ++ '.' :: x))) ':' = some e.length :=
    find_append_cons e _ ':' he1
  have hslash : rfind (e ++ ':' :: (d ++ '/' :: (t ++ '.' :: x))) '/'
      = some (e ++ ':' :: d).length := by
    have hr : '/' ∉ t ++ '.' :: x := by
      have h1 : ('/' : Char) ≠ '.' := by decide
      simp [ht2, hx2, h1]
    have := rfind_append_cons (e ++ ':' :: d) (t ++ '.' :: x) '/' hr
    simpa [List.append_assoc] using this
  have hdot : rfind (e ++ ':' :: (d ++ '/' :: (t ++ '.' :: x))) '.'
      = some (e ++ ':' :: (d ++ '/' :: t)).length := by
    have := rfind_append_cons (e ++ ':' :: (d ++ '/' :: t)) x '.' hx4
    simpa [List.append_assoc] using this
  have hname : (path.new (e ++ ':' :: (d ++ '/' :: (t ++ '.' :: x)))).name = t ++ '.' :: x := by
    have hdrop : List.drop ((e ++ ':' :: d).length + 1)
        ((e ++ ':' :: d) ++ '/' :: (t ++ '.' :: x)) = t ++ '.' :: x := by
      rw [List.drop_append_eq_append_drop]
      simp
    simp only [path.name, path.new, map_normChar_of_not_mem _ hb, hslash, substr]
    simpa [List.append_assoc] using hdrop
  refine ⟨?_, ?_, hname, ?_, ?_⟩
  · simp [path.entryPoint, path.checkValid, path.new, map_normChar_of_not_mem _ hb, hcolon,
      substr]
  · simp [path.pathPart, path.new, map_normChar_of_not_mem _ hb, hcolon, substr]
  · simp [path.stem, hname, rfind_append_cons t x '.' hx4, substr]
  · have hlt : ¬ (e ++ ':' :: (d ++ '/' :: t)).length < (e ++ ':' :: d).length := by
      simp only [List.length_append, List.length_cons]
      omega
    simp only [path.extension, path.new, map_normChar_of_not_mem _ hb, hdot, hslash, substr,
      if_neg hlt]
    simp [List.append_assoc]

/-- C2 at `res:textures/block.png`. -/
theorem derived_views_of_full_address_witness :
    (path.lit "res:textures/block.png").entryPoint = .ok "res".toList ∧
    (path.lit "res:textures/block.png").pathPart = "textures/block.png".toList ∧
    (path.lit "res:textures/block.png").name = "block.png".toList ∧
    (path.lit "res:textures/block.png").stem = "block".toList ∧
    (path.lit "res:textures/block.png").extension = ".png".toList :=
  derived_views_of_full_address "res".toList "textures".toList "block".toList "png".toList
    (by decide) (by decide) (by decide) (by decide)

/-- C8 (the claim fails): the path part of `a::b` is `:b`, which begins with a colon. -/
theorem pathPart_can_begin_with_colon :
    (path.lit "a::b").pathPart = ":b".toList ∧ (path.lit "a::b").pathPart.head? = some ':' := by
  decide

/-- C8 (amended): the path part of `Path(s)` begins with a colon exactly when the first
colon of `s` is immediately followed by another colon; in every other case, a string
with no colon included, it does not begin with a colon. -/
theorem pathPart_begins_with_colon_iff (s : Str) :
    (path.new s).pathPart.head? = some ':' ↔ ∃ e r, s = e ++ ':' :: ':' :: r ∧ ':' ∉ e := by
  constructor
  · intro h
    by_cases hm : ':' ∈ s
    · obtain ⟨e, r, hs, he⟩ := List.eq_append_cons_of_mem hm
      subst hs
      rw [pathPart_new_of_split e r he] at h
      cases r with
      | nil => simp at h
      | cons x r' =>
        simp only [List.map_cons, List.head?_cons, Option.some.injEq] at h
        rw [(normChar_eq_colon x).1 h]
        exact ⟨e, r', rfl, he⟩
    · rw [pathPart_new_of_no_colon s hm] at h
      exact absurd ((colon_mem_map_normChar s).1 (List.mem_of_mem_head? h)) hm
  · rintro ⟨e, r, hs, he⟩
    subst hs
    rw [pathPart_new_of_split e _ he]
    simp [(normChar_eq_colon ':').2 rfl]

/-- C9: with `s'` the string `s` after replacing every backslash by a slash, `Path(s')`
and `Path(s)` store the same string and the same colon offset, the stored string
holds no backslash, all derived views and the parent agree, the two paths compare
equal and neither is less than the other. -/
theorem backslash_normalisation_transparent (s : Str) :
    (path.new (replaceBackslashes s)).str = (path.new s).str ∧
    (path.new (replaceBackslashes s)).colonPos = (path.new s).colonPos ∧
    backslash ∉ (path.new s).str ∧
    (path.new (replaceBackslashes s)).pathPart = (path.new s).pathPart ∧
    (path.new (replaceBackslashes s)).name = (path.new s).name ∧
    (path.new (replaceBackslashes s)).stem = (path.new s).stem ∧
    (path.new (replaceBackslashes s)).extension = (path.new s).extension ∧
    (path.new (replaceBackslashes s)).entryPoint = (path.new s).entryPoint ∧
    (path.new (replaceBackslashes s)).parent = (path.new s).parent ∧
    (path.new (replaceBackslashes s)).eq (path.new s) = true ∧
    (path.new (replaceBackslashes s)).lt (path.new s) = false ∧
    (path.new s).lt (path.new (replaceBackslashes s)) = false := by
  have hstr : (path.new (replaceBackslashes s)).str = (path.new s).str := by
    simp [path.new, replaceBackslashes_eq, normChar_idem]
  have hcol : (path.new (replaceBackslashes s)).colonPos = (path.new s).colonPos :=
    find_replaceBackslashes s
  have hp : path.new (replaceBackslashes s) = path.new s := by
    cases hn : path.new (replaceBackslashes s)
    cases hm : path.new s
    rw [hn, hm] at hstr hcol
    simp at hstr hcol
    rw [hstr, hcol]
  have hnb : backslash ∉ (path.new s).str := by
    simp only [path.new, List.mem_map]
    rintro ⟨c, _, hc⟩
    exact normChar_ne_backslash c hc
  refine ⟨hstr, hcol, hnb, ?_, ?_, ?_, ?_, ?_, ?_, ?_, ?_, ?_⟩
  · rw [hp]
  · rw [hp]
  · rw [hp]
  · rw [hp]
  · rw [hp]
  · rw [hp]
  · simp [path.eq, hstr]
  · simp [path.lt, hstr, strLt_irrefl]
  · simp [path.lt, hstr, strLt_irrefl]

/-- C10: parsing is defined on every string. When `s` contains a colon, the
normalised string splits as `e`, a colon, `r`, where `e` has no colon, `entryPoint()`
is `e` and `pathPart()` is `r` (later colons stay in `r`); when `s` contains no colon,
`pathPart()` is the whole normalised string. -/
theorem first_colon_separates (s : Str) :
    (':' ∈ s → ∃ e r, replaceBackslashes s = e ++ ':' :: r ∧ ':' ∉ e ∧
      (path.new s).entryPoint = .ok e ∧ (path.new s).pathPart = r) ∧
    (':' ∉ s → (path.new s).pathPart = replaceBackslashes s) := by
  constructor
  · intro hm
    obtain ⟨e, r, hs, he⟩ := List.eq_append_cons_of_mem hm
    subst hs
    refine ⟨e.map path.normChar, r.map path.normChar, ?_, ?_,
      entryPoint_new_of_split e r he, pathPart_new_of_split e r he⟩
    · simp [replaceBackslashes_eq, (normChar_eq_colon ':').2 rfl]
    · exact fun h => he ((colon_mem_map_normChar e).1 h)
  · intro hm
    exact pathPart_new_of_no_colon s hm

/-- C10 at `C:\a:b`, whose normalised string is `C:/a:b`, and at `a\b`, which has no
colon. -/
theorem first_colon_separates_witness :
    (∃ e r, replaceBackslashes [ 'C', ':', backslash, 'a', ':', 'b' ] = e ++ ':' :: r ∧
      ':' ∉ e ∧ (path.new [ 'C', ':', backslash, 'a', ':', 'b' ]).entryPoint = .ok e ∧
      (path.new [ 'C', ':', backslash, 'a', ':', 'b' ]).pathPart = r) ∧
    (path.new [ 'a', backslash, 'b' ]).pathPart = replaceBackslashes [ 'a', backslash, 'b' ] :=
  ⟨(first_colon_separates [ 'C', ':', backslash, 'a', ':', 'b' ]).1 (by decide),
    (first_colon_separates [ 'a', backslash, 'b' ]).2 (by decide)⟩

/-! ## The io facade on an unmounted entry point -/

section facade

variable {σ : Type}

theorem require_device_of_unmounted (st : State σ) (ep : Str) (h : get_device st ep = none) :
    require_device st ep = .error (device_not_found ep) := by
  simp [require_device, h]

/-- C3 (the claim fails): with no device mounted as `res`, `write_bytes` and
`write_string` on `res:a.txt` return `false`; they do not fail with the
device-not-found error. -/
theorem write_to_unmounted_does_not_fail :
    (path.lit "res:a.txt").entryPoint = .ok "res".toList ∧
    (get_device state0 "res".toList).isNone = true ∧
    (write_bytes (path.lit "res:a.txt") "x".toList state0).1 = .ok false ∧
    (write_bytes (path.lit "res:a.txt") "x".toList state0).1
      ≠ .error (device_not_found "res".toList) ∧
    (write_string (path.lit "res:a.txt") "x".toList state0).1 = .ok false ∧
    (write_string (path.lit "res:a.txt") "x".toList state0).1
      ≠ .error (device_not_found "res".toList) := by
  decide

/-- C3 (amended): for every state and every path whose entry point is not mounted,
`write_bytes` and `write_string` return `false` without an error, invoke no device
operation and leave the registry (the whole state) unchanged. -/
theorem write_to_unmounted_returns_false (st : State σ) (f : path) (data : List Char)
    (ep : Str) (hep : f.entryPoint = .ok ep) (hun : get_device st ep = none) :
    write_bytes f data st = (.ok false, st) ∧ write_string f data st = (.ok false, st) := by
  simp [write_string, write_bytes, hep, hun]

/-- C3 (amended) at `res:a.txt` in a state with nothing mounted. -/
theorem write_to_unmounted_returns_false_witness :
    write_bytes (path.lit "res:a.txt") "x".toList state0 = (.ok false, state0) ∧
    write_string (path.lit "res:a.txt") "x".toList state0 = (.ok false, state0) :=
  write_to_unmounted_returns_false state0 (path.lit "res:a.txt") "x".toList "res".toList
    (by decide) rfl

/-- C4 (the claim fails): with no device mounted as `res`, `resolve` of `res:a.txt`
returns the empty native path; it does not fail with the device-not-found error. -/
theorem resolve_unmounted_does_not_fail :
    (path.lit "res:a.txt").entryPoint = .ok "res".toList ∧
    (get_device state0 "res".toList).isNone = true ∧
    (resolve (path.lit "res:a.txt") state0).1 = .ok [] ∧
    (resolve (path.lit "res:a.txt") state0).1 ≠ .error (device_not_found "res".toList) := by
  decide

/-- C4 (amended): for every state and every path whose entry point is not mounted,
`resolve` returns the empty native path without an error, invokes no device
operation and leaves the state unchanged. -/
theorem resolve_unmounted_returns_empty (st : State σ) (f : path) (ep : Str)
    (hep : f.entryPoint = .ok ep) (hun : get_device st ep = none) :
    resolve f st = (.ok [], st) := by
  simp [resolve, hep, hun]

/-- C4 (amended) at `res:a.txt` in a state with nothing mounted. -/
theorem resolve_unmounted_returns_empty_witness :
    resolve (path.lit "res:a.txt") state0 = (.ok [], state0) :=
  resolve_unmounted_returns_empty state0 (path.lit "res:a.txt") "res".toList (by decide) rfl

/-- C5: for every state and every path that has an entry point which is not mounted,
`read_bytes` (both overloads), `read_string`, `file_size`, `create_directories`,
`remove` and `remove_all` fail with the device-not-found error; the state they leave
is the state they were given, so no device operation was invoked and the registry
is unchanged. -/
theorem hard_family_fails_on_unmounted (st : State σ) (f : path) (ep : Str)
    (hep : f.entryPoint = .ok ep) (hun : get_device st ep = none) :
    read_bytes f st = (.error (device_not_found ep), st) ∧
    read_bytes_vector f st = (.error (device_not_found ep), st) ∧
    read_string f st = (.error (device_not_found ep), st) ∧
    file_size f st = (.error (device_not_found ep), st) ∧
    create_directories f st = (.error (device_not_found ep), st) ∧
    remove f st = (.error (device_not_found ep), st) ∧
    remove_all f st = (.error (device_not_found ep), st) := by
  have hreq := require_device_of_unmounted st ep hun
  simp [read_bytes, read_bytes_vector, read_string, file_size, create_directories, remove,
    remove_all, hep, hreq]

/-- C5 at `res:a.txt` in a state with nothing mounted. -/
theorem hard_family_fails_on_unmounted_witness :
    read_bytes (path.lit "res:a.txt") state0
      = (.error (device_not_found "res".toList), state0) ∧
    read_bytes_vector (path.lit "res:a.txt") state0
      = (.error (device_not_found "res".toList), state0) ∧
    read_string (path.lit "res:a.txt") state0
      = (.error (device_not_found "res".toList), state0) ∧
    file_size (path.lit "res:a.txt") state0
      = (.error (device_not_found "res".toList), state0) ∧
    create_directories (path.lit "res:a.txt") state0
      = (.error (device_not_found "res".toList), state0) ∧
    remove (path.lit "res:a.txt") state0
      = (.error (device_not_found "res".toList), state0) ∧
    remove_all (path.lit "res:a.txt") state0
      = (.error (device_not_found "res".toList), state0) :=
  hard_family_fails_on_unmounted state0 (path.lit "res:a.txt") "res".toList (by decide) rfl

/-- C6: `exists`, `is_regular_file` and `is_directory` never raise: on every state and
every path each returns a boolean; the boolean is `false` when the path is empty,
has no entry point, or has an entry point that is not mounted; otherwise it is the
answer of the mounted device for the path part. -/
theorem soft_queries_never_raise (st : State σ) (f : path) :
    ((∃ b, (exists_ f st).1 = .ok b) ∧ (∃ b, (is_regular_file f st).1 = .ok b) ∧
      (∃ b, (is_directory f st).1 = .ok b)) ∧
    (f.empty = true ∨ f.colonPos = none →
      (exists_ f st).1 = .ok false ∧ (is_regular_file f st).1 = .ok false ∧
      (is_directory f st).1 = .ok false) ∧
    (∀ ep, f.entryPoint = .ok ep → get_device st ep = none →
      (exists_ f st).1 = .ok false ∧ (is_regular_file f st).1 = .ok false ∧
      (is_directory f st).1 = .ok false) ∧
    (∀ ep d, f.empty = false → f.entryPoint = .ok ep → get_device st ep = some d →
      (exists_ f st).1 = .ok (d.exists_ f.pathPart st.store) ∧
      (is_regular_file f st).1 = .ok (d.isfile f.pathPart st.store) ∧
      (is_directory f st).1 = .ok (d.isdir f.pathPart st.store)) := by
  obtain ⟨str, colonPos⟩ := f
  refine ⟨?_, ?_, ?_, ?_⟩
  · cases colonPos with
    | none => simp [exists_, is_regular_file, is_directory, path.emptyOrInvalid]
    | some c =>
      by_cases hs : str.isEmpty = true
      · simp [exists_, is_regular_file, is_directory, path.emptyOrInvalid, hs]
      · cases hd : get_device st (substr str 0 (some c)) <;>
          simp [exists_, is_regular_file, is_directory, path.emptyOrInvalid, hs,
            path.entryPoint, path.checkValid, hd]
  · rintro (h | h)
    · have hs : str.isEmpty = true := h
      simp [exists_, is_regular_file, is_directory, path.emptyOrInvalid, hs]
    · have hc : colonPos = none := h
      simp [exists_, is_regular_file, is_directory, path.emptyOrInvalid, hc]
  · intro ep hep hun
    by_cases he : path.emptyOrInvalid ⟨str, colonPos⟩ = true
    · simp [exists_, is_regular_file, is_directory, he]
    · simp [exists_, is_regular_file, is_directory, he, hep, hun]
  · intro ep d hne hep hd
    have hs : str.isEmpty = false := hne
    cases colonPos with
    | none => simp [path.entryPoint, path.checkValid] at hep
    | some c =>
      simp [exists_, is_regular_file, is_directory, path.emptyOrInvalid, hs, hep, hd]

/-- C6 on the empty path, on a path with no colon, on an unmounted entry point, and on
`res:a.txt` with a device mounted as `res` that holds the file `a.txt`. -/
theorem soft_queries_never_raise_witness :
    ((exists_ path.path0 state1).1 = .ok false ∧
      (is_regular_file path.path0 state1).1 = .ok false ∧
      (is_directory path.path0 state1).1 = .ok false) ∧
    ((exists_ (path.lit "a.txt") state1).1 = .ok false ∧
      (is_regular_file (path.lit "a.txt") state1).1 = .ok false ∧
      (is_directory (path.lit "a.txt") state1).1 = .ok false) ∧
    ((exists_ (path.lit "user:a.txt") state1).1 = .ok false ∧
      (is_regular_file (path.lit "user:a.txt") state1).1 = .ok false ∧
      (is_directory (path.lit "user:a.txt") state1).1 = .ok false) ∧
    ((exists_ (path.lit "res:a.txt") state1).1 = .ok true ∧
      (is_regular_file (path.lit "res:a.txt") state1).1 = .ok true ∧
      (is_directory (path.lit "res:a.txt") state1).1 = .ok false) :=
  ⟨(soft_queries_never_raise state1 path.path0).2.1 (Or.inl rfl),
    (soft_queries_never_raise state1 (path.lit "a.txt")).2.1 (Or.inr rfl),
    (soft_queries_never_raise state1 (path.lit "user:a.txt")).2.2.1 "user".toList
      (by decide) rfl,
    (soft_queries_never_raise state1 (path.lit "res:a.txt")).2.2.2 "res".toList tableDevice
      rfl (by decide) rfl⟩

/-- C7: after `set_device(n, d)` followed by `remove_device(n)`, `get_device(n)` is
null, `require_device(n)` fails with the device-not-found error, and `exists(p)`
returns `false` without raising (and without touching the state) for every path `p`
whose entry point is `n`. -/
theorem mount_then_unmount (st : State σ) (n : Str) (d : Option (Device σ)) :
    get_device (remove_device n (set_device n d st)) n = none ∧
    require_device (remove_device n (set_device n d st)) n = .error (device_not_found n) ∧
    ∀ p : path, p.entryPoint = .ok n →
      exists_ p (remove_device n (set_device n d st))
        = (.ok false, remove_device n (set_device n d st)) := by
  have hget : get_device (remove_device n (set_device n d st)) n = none := by
    simp [get_device, remove_device]
  refine ⟨hget, require_device_of_unmounted _ n hget, ?_⟩
  intro p hp
  by_cases he : p.emptyOrInvalid = true
  · simp [exists_, he]
  · simp [exists_, he, hp, hget]

/-- C7 with the table device mounted as `res` and unmounted again, probed at
`res:a.txt`. -/
theorem mount_then_unmount_witness :
    exists_ (path.lit "res:a.txt")
        (remove_device "res".toList (set_device "res".toList (some tableDevice) state0))
      = (.ok false,
          remove_device "res".toList (set_device "res".toList (some tableDevice) state0)) :=
  (mount_then_unmount state0 "res".toList (some tableDevice)).2.2 (path.lit "res:a.txt")
    (by decide)

end facade

end io

namespace io

/-! ## More facts about `rfind` and the views -/

theorem exists_last_split (s : Str) (c : Char) (h : c ∈ s) :
    ∃ l n, s = l ++ c :: n ∧ c ∉ n := by
  induction s with
  | nil => simp at h
  | cons x xs ih =>
    by_cases hxs : c ∈ xs
    · obtain ⟨l, n, hl, hn⟩ := ih hxs
      exact ⟨x :: l, n, by simp [hl], hn⟩
    · have hx : c = x := by
        rcases List.mem_cons.1 h with h1 | h1
        · exact h1
        · exact absurd h1 hxs
      exact ⟨[], xs, by simp [hx], hxs⟩

theorem rfind_append_of_not_mem (l r : Str) (c : Char) (h : c ∉ r) :
    rfind (l ++ r) c = rfind l c := by
  induction l with
  | nil => simp [rfind, rfind_eq_none_of_not_mem r c h]
  | cons x xs ih => simp [rfind, ih]

theorem rfind_lt_length (s : Str) (c : Char) (i : Nat) (h : rfind s c = some i) :
    i < s.length := by
  induction s generalizing i with
  | nil => simp [rfind] at h
  | cons x xs ih =>
    cases hr : rfind xs c with
    | some j =>
      simp [rfind, hr] at h
      have := ih j hr
      simp only [List.length_cons]
      omega
    | none =>
      by_cases hx : x = c
      · simp [rfind, hr, hx] at h
        simp [← h]
      · simp [rfind, hr, hx] at h

theorem rfind_ne_none_of_mem (s : Str) (c : Char) (h : c ∈ s) : rfind s c ≠ none := by
  obtain ⟨l, n, hl, hn⟩ := exists_last_split s c h
  rw [hl, rfind_append_cons l n c hn]
  simp

theorem name_of_slash_split (p : path) (l n : Str) (h : p.str = l ++ '/' :: n)
    (hn : '/' ∉ n) : p.name = n := by
  have hdrop : List.drop (l.length + 1) (l ++ '/' :: n) = n := by
    rw [List.drop_append_eq_append_drop]
    simp
  simp only [path.name, h, rfind_append_cons l n '/' hn, substr]
  exact hdrop

theorem name_of_no_slash (p : path) (e r : Str) (h : p.str = e ++ ':' :: r)
    (hc : p.colonPos = some e.length) (hs : '/' ∉ p.str) : p.name = r := by
  have hdrop : List.drop (e.length + 1) (e ++ ':' :: r) = r := by
    rw [List.drop_append_eq_append_drop]
    simp
  rw [h] at hs
  simp only [path.name, h, rfind_eq_none_of_not_mem _ '/' hs, hc, substr]
  exact hdrop

theorem extension_of_slash_split (p : path) (l n : Str) (h : p.str = l ++ '/' :: n)
    (hn : '/' ∉ n) (hd : '.' ∉ n) : p.extension = [] := by
  have hdn : '.' ∉ '/' :: n := by
    have h1 : ('.' : Char) ≠ '/' := by decide
    simp [hd, h1]
  have hdot : rfind p.str '.' = rfind l '.' := by
    rw [h]
    exact rfind_append_of_not_mem l ('/' :: n) '.' hdn
  have hsl : rfind p.str '/' = some l.length := by
    rw [h]
    exact rfind_append_cons l n '/' hn
  cases hr : rfind l '.' with
  | none => simp [path.extension, hdot, hr]
  | some dp =>
    have hlt := rfind_lt_length l '.' dp hr
    simp [path.extension, hdot, hr, hsl, hlt]

theorem str_new_of_split (e r : Str) :
    (path.new (e ++ ':' :: r)).str = e.map path.normChar ++ ':' :: r.map path.normChar := by
  simp [path.new, (normChar_eq_colon ':').2 rfl]

theorem colonPos_new_of_split (e r : Str) (h : ':' ∉ e) :
    (path.new (e ++ ':' :: r)).colonPos = some (e.map path.normChar).length := by
  simp [path.new, find_append_cons e r ':' h]

/-- A path with no colon and no slash has the empty path as its parent: the case of a
root-only path without an entry point. -/
theorem parent_of_bare_name (s : Str) (hc : ':' ∉ s) (hs : '/' ∉ (path.new s).pathPart) :
    (path.new s).parent = path.path0 := by
  rw [pathPart_new_of_no_colon s hc] at hs
  have h1 : rfind (path.new s).str '/' = none := rfind_eq_none_of_not_mem _ _ hs
  have h2 : (path.new s).colonPos = none := find_eq_none_of_not_mem s ':' hc
  simp [path.parent, h1, h2]

/-- C11 (evaluation at the failing input): the parent of `res:file` is computed as the
path `res`, which has no colon: its entry point cannot be extracted and its path part
is `res`, not empty. -/
theorem parent_of_res_file :
    (path.lit "res:file").parent = path.lit "res" ∧
    (path.lit "res:file").parent.colonPos = none ∧
    (path.lit "res:file").parent.entryPoint = .error (.invalid_path "res".toList) ∧
    (path.lit "res:file").parent.entryPoint ≠ .ok "res".toList ∧
    (path.lit "res:file").parent.pathPart = "res".toList := by
  decide

/-- C12 (evaluation at the failing input): `my.mod:readme` has the entry point `my.mod`
and its name `readme` has no dot; its stem is its name, as the claim says, but its
extension is computed as `.mod:readme`, not the empty string. -/
theorem extension_reaches_into_entry_point :
    (path.lit "my.mod:readme").entryPoint = .ok "my.mod".toList ∧
    (path.lit "my.mod:readme").name = "readme".toList ∧
    '.' ∉ (path.lit "my.mod:readme").name ∧
    (path.lit "my.mod:readme").stem = (path.lit "my.mod:readme").name ∧
    (path.lit "my.mod:readme").extension = ".mod:readme".toList ∧
    (path.lit "my.mod:readme").extension ≠ [] := by
  decide

/-- Where a path with an entry point and a name without a dot does get an empty
extension: `stem()` equals `name()` always, and `extension()` is the empty string
exactly when the stored string contains a slash or the entry point contains no dot. -/
theorem views_of_name_without_dot (s : Str) (hc : ':' ∈ s)
    (hn : '.' ∉ (path.new s).name) :
    (path.new s).stem = (path.new s).name ∧
    ((path.new s).extension = [] ↔
      ('/' ∈ (path.new s).str ∨ ∃ e, (path.new s).entryPoint = .ok e ∧ '.' ∉ e)) := by
  refine ⟨?_, ?_⟩
  · simp [path.stem, rfind_eq_none_of_not_mem _ _ hn, substr]
  · obtain ⟨e0, r0, hs, he⟩ := List.eq_append_cons_of_mem hc
    subst hs
    have hstr := str_new_of_split e0 r0
    have hcol := colonPos_new_of_split e0 r0 he
    have hep := entryPoint_new_of_split e0 r0 he
    by_cases hsl : '/' ∈ (path.new (e0 ++ ':' :: r0)).str
    · obtain ⟨l, n, hl, hnn⟩ := exists_last_split _ '/' hsl
      have hname := name_of_slash_split _ l n hl hnn
      rw [hname] at hn
      have hext := extension_of_slash_split _ l n hl hnn hn
      simp [hext, hsl]
    · have hname := name_of_no_slash _ _ _ hstr hcol hsl
      rw [hname] at hn
      have hdn : '.' ∉ ':' :: r0.map path.normChar := by
        have h1 : ('.' : Char) ≠ ':' := by decide
        simp only [List.mem_cons, not_or]
        exact ⟨h1, hn⟩
      have hdot : rfind (path.new (e0 ++ ':' :: r0)).str '.'
          = rfind (e0.map path.normChar) '.' := by
        rw [hstr]
        exact rfind_append_of_not_mem _ _ '.' hdn
      have hnosl : rfind (path.new (e0 ++ ':' :: r0)).str '/' = none :=
        rfind_eq_none_of_not_mem _ _ hsl
      constructor
      · intro hext
        refine Or.inr ⟨_, hep, ?_⟩
        intro hmem
        cases hr : rfind (e0.map path.normChar) '.' with
        | none => exact rfind_ne_none_of_mem _ _ hmem hr
        | some dp =>
          have hlt := rfind_lt_length _ _ _ hr
          have hlen : dp < (path.new (e0 ++ ':' :: r0)).str.length := by
            rw [hstr]
            simp only [List.length_append, List.length_cons]
            omega
          simp only [path.extension, hdot, hr, hnosl, substr] at hext
          have := congrArg List.length hext
          simp only [List.length_drop, List.length_nil] at this
          omega
      · rintro (h | ⟨e, hee, hd⟩)
        · exact absurd h hsl
        · rw [hep] at hee
          cases hee
          simp [path.extension, hdot, rfind_eq_none_of_not_mem _ _ hd]

end io

namespace io

/-! ## Sub-devices -/

section subdevice

variable {σ : Type}

theorem map_normChar_idem (s : Str) :
    (s.map path.normChar).map path.normChar = s.map path.normChar := by
  simp [normChar_idem]

theorem map_normChar_pathPart_new (s : Str) :
    (path.new s).pathPart.map path.normChar = (path.new s).pathPart := by
  by_cases hc : ':' ∈ s
  · obtain ⟨e, r, hs, he⟩ := List.eq_append_cons_of_mem hc
    subst hs
    rw [pathPart_new_of_split e r he]
    exact map_normChar_idem r
  · rw [pathPart_new_of_no_colon s hc]
    exact map_normChar_idem s

theorem read_bytes_result (f : path) (st : State σ) (ep : Str) (d : Device σ)
    (hep : f.entryPoint = .ok ep) (hd : get_device st ep = some d) :
    (read_bytes f st).1 =
      match d.size f.pathPart st.store with
      | .error e => .error e
      | .ok length =>
        match d.read f.pathPart length st.store with
        | .error e => .error e
        | .ok data => .ok (data, length) := by
  simp only [read_bytes, hep, require_device, hd]
  cases h1 : d.size f.pathPart st.store with
  | error e => rfl
  | ok length =>
    simp only []
    cases h2 : d.read f.pathPart length st.store <;> rfl

theorem read_bytes_vector_result (f : path) (st : State σ) (ep : Str) (d : Device σ)
    (hep : f.entryPoint = .ok ep) (hd : get_device st ep = some d) :
    (read_bytes_vector f st).1 =
      match d.size f.pathPart st.store with
      | .error e => .error e
      | .ok length => d.read f.pathPart length st.store := by
  simp only [read_bytes_vector, hep, require_device, hd]
  cases h1 : d.size f.pathPart st.store with
  | error e => rfl
  | ok length =>
    simp only []
    cases h2 : d.read f.pathPart length st.store <;> rfl

theorem read_string_result (f : path) (st : State σ) (ep : Str) (d : Device σ)
    (hep : f.entryPoint = .ok ep) (hd : get_device st ep = some d) :
    (read_string f st).1 =
      match d.size f.pathPart st.store with
      | .error e => .error e
      | .ok length =>
        match d.read f.pathPart length st.store with
        | .error e => .error e
        | .ok data => .ok (data.take length) := by
  simp only [read_string, read_bytes, hep, require_device, hd]
  cases h1 : d.size f.pathPart st.store with
  | error e => rfl
  | ok length =>
    simp only []
    cases h2 : d.read f.pathPart length st.store <;> rfl

theorem create_subdevice_of_mounted (st : State σ) (name parent : Str) (root : path)
    (D : Device σ) (hD : get_device st parent = some D) :
    create_subdevice name parent root st
      = (.ok (), set_device name (some (SubDevice D root.pathPart)) st) := by
  simp [create_subdevice, hD]

theorem get_device_set_device_same (st : State σ) (name : Str) (d : Option (Device σ)) :
    get_device (set_device name d st) name = d := by
  simp [get_device, set_device]

theorem get_device_set_device_other (st : State σ) (name n : Str) (d : Option (Device σ))
    (h : n ≠ name) : get_device (set_device name d st) n = get_device st n := by
  simp [get_device, set_device, h]

/-- C13: when `data` is mounted on a device `D`, `create_subdevice("user", "data", root)`
succeeds, and afterwards, for every relative path `q`, `read_bytes` (both overloads)
and `read_string` of `user:q` return the same result, value or error, as the same
function on `data:r/q`, where `r` is the path part of `root`. -/
theorem subdevice_read_is_parent_read (st : State σ) (D : Device σ) (root q : Str)
    (hD : get_device st "data".toList = some D) :
    (create_subdevice "user".toList "data".toList (path.new root) st).1 = .ok () ∧
    (read_bytes (path.new ("user".toList ++ ':' :: q))
        (create_subdevice "user".toList "data".toList (path.new root) st).2).1
      = (read_bytes
          (path.new ("data".toList ++ ':' :: ((path.new root).pathPart ++ '/' :: q)))
          (create_subdevice "user".toList "data".toList (path.new root) st).2).1 ∧
    (read_bytes_vector (path.new ("user".toList ++ ':' :: q))
        (create_subdevice "user".toList "data".toList (path.new root) st).2).1
      = (read_bytes_vector
          (path.new ("data".toList ++ ':' :: ((path.new root).pathPart ++ '/' :: q)))
          (create_subdevice "user".toList "data".toList (path.new root) st).2).1 ∧
    (read_string (path.new ("user".toList ++ ':' :: q))
        (create_subdevice "user".toList "data".toList (path.new root) st).2).1
      = (read_string
          (path.new ("data".toList ++ ':' :: ((path.new root).pathPart ++ '/' :: q)))
          (create_subdevice "user".toList "data".toList (path.new root) st).2).1 := by
  rw [create_subdevice_of_mounted st _ _ _ D hD]
  have huser : get_device
      (set_device "user".toList (some (SubDevice D (path.new root).pathPart)) st)
      "user".toList = some (SubDevice D (path.new root).pathPart) :=
    get_device_set_device_same _ _ _
  have hdata : get_device
      (set_device "user".toList (some (SubDevice D (path.new root).pathPart)) st)
      "data".toList = some D := by
    rw [get_device_set_device_other _ _ _ _ (by decide)]
    exact hD
  have hepu : (path.new ("user".toList ++ ':' :: q)).entryPoint = .ok "user".toList :=
    entryPoint_new_of_split "user".toList q (by decide)
  have hepd : (path.new ("data".toList ++ ':' ::
      ((path.new root).pathPart ++ '/' :: q))).entryPoint = .ok "data".toList :=
    entryPoint_new_of_split "data".toList _ (by decide)
  have hppu : (path.new ("user".toList ++ ':' :: q)).pathPart = q.map path.normChar :=
    pathPart_new_of_split "user".toList q (by decide)
  have hppd : (path.new ("data".toList ++ ':' ::
      ((path.new root).pathPart ++ '/' :: q))).pathPart
      = (path.new root).pathPart ++ "/".toList ++ q.map path.normChar := by
    rw [pathPart_new_of_split "data".toList _ (by decide)]
    have hsl : path.normChar '/' = '/' := by decide
    simp [map_normChar_pathPart_new root, hsl]
  refine ⟨rfl, ?_, ?_, ?_⟩
  · rw [read_bytes_result _ _ _ _ hepu huser, read_bytes_result _ _ _ _ hepd hdata, hppu, hppd]
    rfl
  · rw [read_bytes_vector_result _ _ _ _ hepu huser,
      read_bytes_vector_result _ _ _ _ hepd hdata, hppu, hppd]
    rfl
  · rw [read_string_result _ _ _ _ hepu huser, read_string_result _ _ _ _ hepd hdata,
      hppu, hppd]
    rfl

/-- C13 with root `profiles/user1` and `q = settings.json`, on a device mounted as
`data` that stores `profiles/user1/settings.json`. -/
theorem subdevice_read_is_parent_read_witness :
    (create_subdevice "user".toList "data".toList (path.new "profiles/user1".toList)
        state2).1 = .ok () ∧
    (read_bytes (path.new ("user".toList ++ ':' :: "settings.json".toList))
        (create_subdevice "user".toList "data".toList (path.new "profiles/user1".toList)
          state2).2).1
      = (read_bytes
          (path.new ("data".toList ++ ':' ::
            ((path.new "profiles/user1".toList).pathPart ++ '/' :: "settings.json".toList)))
          (create_subdevice "user".toList "data".toList (path.new "profiles/user1".toList)
            state2).2).1 ∧
    (read_bytes_vector (path.new ("user".toList ++ ':' :: "settings.json".toList))
        (create_subdevice "user".toList "data".toList (path.new "profiles/user1".toList)
          state2).2).1
      = (read_bytes_vector
          (path.new ("data".toList ++ ':' ::
            ((path.new "profiles/user1".toList).pathPart ++ '/' :: "settings.json".toList)))
          (create_subdevice "user".toList "data".toList (path.new "profiles/user1".toList)
            state2).2).1 ∧
    (read_string (path.new ("user".toList ++ ':' :: "settings.json".toList))
        (create_subdevice "user".toList "data".toList (path.new "profiles/user1".toList)
          state2).2).1
      = (read_string
          (path.new ("data".toList ++ ':' ::
            ((path.new "profiles/user1".toList).pathPart ++ '/' :: "settings.json".toList)))
          (create_subdevice "user".toList "data".toList (path.new "profiles/user1".toList)
            state2).2).1 :=
  subdevice_read_is_parent_read state2 tableDevice "profiles/user1".toList
    "settings.json".toList rfl

/-- C14: `create_subdevice(name, parent, root)` with `parent` not mounted fails with the
error `parent device not found for entry-point: parent` and returns the state it was
given; with `parent` mounted on `D` it succeeds, afterwards `get_device(name)` is the
sub-device of `D` with root `root.pathPart()`, every other name is mapped as before,
and the storage and the call trace are untouched. -/
theorem create_subdevice_contract (st : State σ) (name parent : Str) (root : path) :
    (get_device st parent = none →
      create_subdevice name parent root st = (.error (parent_device_not_found parent), st)) ∧
    (∀ D, get_device st parent = some D →
      (create_subdevice name parent root st).1 = .ok () ∧
      get_device (create_subdevice name parent root st).2 name
        = some (SubDevice D root.pathPart) ∧
      (∀ n, n ≠ name →
        (create_subdevice name parent root st).2.devices n = st.devices n) ∧
      (create_subdevice name parent root st).2.store = st.store ∧
      (create_subdevice name parent root st).2.calls = st.calls) := by
  refine ⟨?_, ?_⟩
  · intro h
    simp [create_subdevice, h]
  · intro D hD
    rw [create_subdevice_of_mounted st name parent root D hD]
    refine ⟨rfl, get_device_set_device_same _ _ _, ?_, rfl, rfl⟩
    intro n hn
    simp [set_device, hn]

/-- C14 with the parent `nodev`, which is not mounted, and the parent `data`, which is. -/
theorem create_subdevice_contract_witness :
    create_subdevice "user".toList "nodev".toList (path.lit "x:profiles/user1") state2
      = (.error (parent_device_not_found "nodev".toList), state2) ∧
    ((create_subdevice "user".toList "data".toList (path.lit "x:profiles/user1") state2).1
        = .ok () ∧
      get_device
          (create_subdevice "user".toList "data".toList (path.lit "x:profiles/user1")
            state2).2 "user".toList
        = some (SubDevice tableDevice (path.lit "x:profiles/user1").pathPart) ∧
      (∀ n, n ≠ "user".toList →
        (create_subdevice "user".toList "data".toList (path.lit "x:profiles/user1")
          state2).2.devices n = state2.devices n) ∧
      (create_subdevice "user".toList "data".toList (path.lit "x:profiles/user1")
        state2).2.store = state2.store ∧
      (create_subdevice "user".toList "data".toList (path.lit "x:profiles/user1")
        state2).2.calls = state2.calls) :=
  ⟨(create_subdevice_contract state2 "user".toList "nodev".toList
      (path.lit "x:profiles/user1")).1 rfl,
    (create_subdevice_contract state2 "user".toList "data".toList
      (path.lit "x:profiles/user1")).2 tableDevice rfl⟩

/-- C15: after `create_subdevice(n, p, root)` with `n ≠ p` and `p` mounted on `D`,
followed by `remove_device(p)`, `get_device(p)` is null, `get_device(n)` is still the
sub-device of `D` with root `root.pathPart()`, every operation of that sub-device is
the operation of `D` on the path prefixed with the root, and `file_size` and `resolve`
of a path under `n` answer what `D` answers for the prefixed path part. -/
theorem unmount_parent_keeps_subdevice (st : State σ) (n p : Str) (root : path)
    (D : Device σ) (hnp : n ≠ p) (hD : get_device st p = some D) :
    (create_subdevice n p root st).1 = .ok () ∧
    get_device (remove_device p (create_subdevice n p root st).2) p = none ∧
    get_device (remove_device p (create_subdevice n p root st).2) n
      = some (SubDevice D root.pathPart) ∧
    (∀ (q : Str) (s : σ) (k : Nat) (data : List Char),
      (SubDevice D root.pathPart).resolve q s
        = D.resolve (root.pathPart ++ "/".toList ++ q) s ∧
      (SubDevice D root.pathPart).write q data s
        = D.write (root.pathPart ++ "/".toList ++ q) data s ∧
      (SubDevice D root.pathPart).read q k s
        = D.read (root.pathPart ++ "/".toList ++ q) k s ∧
      (SubDevice D root.pathPart).size q s = D.size (root.pathPart ++ "/".toList ++ q) s ∧
      (SubDevice D root.pathPart).exists_ q s
        = D.exists_ (root.pathPart ++ "/".toList ++ q) s ∧
      (SubDevice D root.pathPart).isdir q s = D.isdir (root.pathPart ++ "/".toList ++ q) s ∧
      (SubDevice D root.pathPart).isfile q s
        = D.isfile (root.pathPart ++ "/".toList ++ q) s ∧
      (SubDevice D root.pathPart).mkdirs q s
        = D.mkdirs (root.pathPart ++ "/".toList ++ q) s ∧
      (SubDevice D root.pathPart).remove q s
        = D.remove (root.pathPart ++ "/".toList ++ q) s ∧
      (SubDevice D root.pathPart).removeAll q s
        = D.removeAll (root.pathPart ++ "/".toList ++ q) s) ∧
    (∀ f : path, f.entryPoint = .ok n →
      (file_size f (remove_device p (create_subdevice n p root st).2)).1
        = D.size (root.pathPart ++ "/".toList ++ f.pathPart) st.store ∧
      (resolve f (remove_device p (create_subdevice n p root st).2)).1
        = .ok (D.resolve (root.pathPart ++ "/".toList ++ f.pathPart) st.store)) := by
  rw [create_subdevice_of_mounted st n p root D hD]
  have hp : get_device
      (remove_device p (set_device n (some (SubDevice D root.pathPart)) st)) p = none := by
    simp [get_device, remove_device]
  have hn : get_device
      (remove_device p (set_device n (some (SubDevice D root.pathPart)) st)) n
      = some (SubDevice D root.pathPart) := by
    simp [get_device, remove_device, set_device, hnp]
  refine ⟨rfl, hp, hn, ?_, ?_⟩
  · intro q s k data
    exact ⟨rfl, rfl, rfl, rfl, rfl, rfl, rfl, rfl, rfl, rfl⟩
  · intro f hf
    constructor
    · simp only [file_size, hf, require_device, hn]
      rfl
    · simp only [resolve, hf, hn]
      rfl

/-- C15 with the sub-device `user` of `data`, rooted at `profiles/user1`, after `data`
is unmounted: the size of `user:settings.json` is still answered by the table device. -/
theorem unmount_parent_keeps_subdevice_witness :
    (file_size (path.lit "user:settings.json")
        (remove_device "data".toList
          (create_subdevice "user".toList "data".toList (path.lit "profiles/user1")
            state2).2)).1
      = tableDevice.size
          ((path.lit "profiles/user1").pathPart ++ "/".toList
            ++ (path.lit "user:settings.json").pathPart) state2.store ∧
    (resolve (path.lit "user:settings.json")
        (remove_device "data".toList
          (create_subdevice "user".toList "data".toList (path.lit "profiles/user1")
            state2).2)).1
      = .ok (tableDevice.resolve
          ((path.lit "profiles/user1").pathPart ++ "/".toList
            ++ (path.lit "user:settings.json").pathPart) state2.store) :=
  (unmount_parent_keeps_subdevice state2 "user".toList "data".toList
    (path.lit "profiles/user1") tableDevice (by decide) rfl).2.2.2.2
    (path.lit "user:settings.json") (by decide)

end subdevice

end io

namespace io

/-! ## Data-interchange dispatch -/

section dispatch

variable {σ V : Type}

theorem data_decoders_find_eq (c : Coders V) (ext : Str) :
    data_decoders_find c ext =
      if ext = ".json".toList then some c.json_parse
      else if ext = ".toml".toList then some c.toml_parse
      else none := by
  unfold data_decoders_find data_decoders
  by_cases h1 : ext = ".json".toList
  · subst h1
    rfl
  · by_cases h2 : ext = ".toml".toList
    · subst h2
      rfl
    · rw [if_neg h1, if_neg h2]
      have e1 : (ext == ".json".toList) = false := beq_false_of_ne h1
      have e2 : (ext == ".toml".toList) = false := beq_false_of_ne h2
      simp only [List.lookup, e1, e2]

/-- C16: on a path whose extension has no registered decoder, `read_object` fails with
the error `unknown file format`, which is not a device-not-found error, and returns
the state it was given: no device operation is invoked, whatever the registry holds
and whether or not the path has an entry point. -/
theorem read_object_unknown_format (c : Coders V) (st : State σ) (f : path)
    (h : is_data_interchange_format c f.extension = false) :
    read_object c f st = (.error unknown_file_format, st) ∧
    (∀ ep, unknown_file_format ≠ device_not_found ep) := by
  refine ⟨?_, ?_⟩
  · have hnone : data_decoders_find c f.extension = none := by
      simpa [is_data_interchange_format] using h
    simp [read_object, hnone]
  · intro ep he
    simp [unknown_file_format, device_not_found] at he

/-- C16 at `nodev:x.png`, whose entry point is not mounted. -/
theorem read_object_unknown_format_witness :
    read_object toyCoders (path.lit "nodev:x.png") state2
      = (.error unknown_file_format, state2) ∧
    (∀ ep, unknown_file_format ≠ device_not_found ep) :=
  read_object_unknown_format toyCoders state2 (path.lit "nodev:x.png") (by decide)

/-- C17: `is_data_interchange_format(ext)` is true exactly when the decoder table has
an entry for `ext`, that is exactly when `ext` is `.json` or `.toml`; it is true for
`.json`, false for `.png`, for `.JSON` and for `json`; and `is_data_file(p)` is
`is_data_interchange_format(p.extension())` for every path `p`. -/
theorem is_data_interchange_format_iff (c : Coders V) (ext : Str) :
    (is_data_interchange_format c ext = true ↔ ∃ d, (ext, d) ∈ data_decoders c) ∧
    (is_data_interchange_format c ext = true ↔ ext = ".json".toList ∨ ext = ".toml".toList) ∧
    is_data_interchange_format c ".json".toList = true ∧
    is_data_interchange_format c ".png".toList = false ∧
    is_data_interchange_format c ".JSON".toList = false ∧
    is_data_interchange_format c "json".toList = false ∧
    (∀ p : path, is_data_file c p = is_data_interchange_format c p.extension) := by
  have hiff : is_data_interchange_format c ext = true
      ↔ ext = ".json".toList ∨ ext = ".toml".toList := by
    unfold is_data_interchange_format
    rw [data_decoders_find_eq]
    by_cases h1 : ext = ".json".toList
    · simp [h1]
    · by_cases h2 : ext = ".toml".toList
      · simp [h2]
      · rw [if_neg h1, if_neg h2]
        constructor
        · intro h
          simp at h
        · rintro (h | h)
          · exact absurd h h1
          · exact absurd h h2
  refine ⟨?_, hiff, ?_, ?_, ?_, ?_, fun _ => rfl⟩
  · rw [hiff]
    constructor
    · rintro (h | h)
      · exact ⟨c.json_parse, by simp [data_decoders, h]⟩
      · exact ⟨c.toml_parse, by simp [data_decoders, h]⟩
    · rintro ⟨d, hd⟩
      simp only [data_decoders, List.mem_cons, Prod.mk.injEq, List.mem_singleton,
        List.not_mem_nil, or_false] at hd
      rcases hd with ⟨h, _⟩ | ⟨h, _⟩
      · exact Or.inl h
      · exact Or.inr h
  · rfl
  · rfl
  · rfl
  · rfl

/-- C18: when the extension of the path has the registered decoder `decode`,
`read_object` first reads the text with `read_string`; if that succeeds with `text`,
the result is the value `decode(path.string(), text)` when the decoder succeeds, and
a `std::runtime_error` whose message is the decoder's error log when the decoder
fails with a parsing error; a failure of `read_string` is passed on unchanged. -/
theorem read_object_decodes (c : Coders V) (st : State σ) (f : path)
    (decode : DecodeFunc V) (hdec : data_decoders_find c f.extension = some decode) :
    (∀ text st1, read_string f st = (.ok text, st1) →
      (∀ v, decode f.string text = .ok v → read_object c f st = (.ok v, st1)) ∧
      (∀ err, decode f.string text = .error err →
        read_object c f st = (.error (.runtime_error err.errorLog), st1))) ∧
    (∀ e st1, read_string f st = (.error e, st1) →
      read_object c f st = (.error e, st1)) := by
  refine ⟨?_, ?_⟩
  · intro text st1 hr
    constructor
    · intro v hv
      simp [read_object, hdec, hr, hv]
    · intro err herr
      simp [read_object, hdec, hr, herr]
  · intro e st1 hr
    simp [read_object, hdec, hr]

/-- C18 on the device mounted as `data`: `settings.json` decodes to its text, and
`bad.toml`, which the decoder rejects, gives a runtime error carrying the error log. -/
theorem read_object_decodes_witness :
    read_object toyCoders (path.lit "data:profiles/user1/settings.json") state2
      = (.ok "abc".toList,
          (read_string (path.lit "data:profiles/user1/settings.json") state2).2) ∧
    read_object toyCoders (path.lit "data:profiles/user1/bad.toml") state2
      = (.error (.runtime_error
            ("bad toml: ".toList ++ "data:profiles/user1/bad.toml".toList)),
          (read_string (path.lit "data:profiles/user1/bad.toml") state2).2) :=
  ⟨((read_object_decodes toyCoders state2 (path.lit "data:profiles/user1/settings.json")
      toyCoders.json_parse rfl).1 "abc".toList _ rfl).1 "abc".toList rfl,
    ((read_object_decodes toyCoders state2 (path.lit "data:profiles/user1/bad.toml")
      toyCoders.toml_parse rfl).1 "x".toList _ rfl).2
      { errorLog := "bad toml: ".toList ++ "data:profiles/user1/bad.toml".toList } rfl⟩

end dispatch

end io

namespace io

/-! ## Joining a child to a path -/

theorem normChar_comp : path.normChar ∘ path.normChar = path.normChar :=
  funext normChar_idem

theorem new_append_views (e0 r0 x : Str) (he : ':' ∉ e0) :
    (path.new ((path.new (e0 ++ ':' :: r0)).str ++ x)).str
      = (path.new (e0 ++ ':' :: r0)).str ++ x.map path.normChar ∧
    (path.new ((path.new (e0 ++ ':' :: r0)).str ++ x)).colonPos
      = (path.new (e0 ++ ':' :: r0)).colonPos ∧
    (path.new ((path.new (e0 ++ ':' :: r0)).str ++ x)).entryPoint
      = (path.new (e0 ++ ':' :: r0)).entryPoint ∧
    (path.new ((path.new (e0 ++ ':' :: r0)).str ++ x)).pathPart
      = (path.new (e0 ++ ':' :: r0)).pathPart ++ x.map path.normChar := by
  have he' : ':' ∉ e0.map path.normChar := fun h => he ((colon_mem_map_normChar e0).1 h)
  have hstr := str_new_of_split e0 r0
  have hx : (path.new (e0 ++ ':' :: r0)).str ++ x
      = e0.map path.normChar ++ ':' :: (r0.map path.normChar ++ x) := by
    rw [hstr]
    simp
  rw [hx]
  refine ⟨?_, ?_, ?_, ?_⟩
  · rw [str_new_of_split, hstr]
    simp [normChar_comp]
  · rw [colonPos_new_of_split _ _ he', colonPos_new_of_split _ _ he]
    simp
  · rw [entryPoint_new_of_split _ _ he', entryPoint_new_of_split _ _ he]
    simp [normChar_comp]
  · rw [pathPart_new_of_split _ _ he', pathPart_new_of_split _ _ he]
    simp [normChar_comp]

theorem div_eq (p : path) (c : Str) (hne : p.str ≠ []) :
    p.div c = if p.str.getLast? = some ':' then path.new (p.str ++ c)
      else path.new (p.str ++ ("/".toList ++ c)) := by
  have hemp : p.str.isEmpty = false := by
    cases hp : p.str with
    | nil => exact absurd hp hne
    | cons x xs => rfl
  by_cases hl : p.str.getLast? = some ':'
  · simp [path.div, hemp, hl]
  · simp [path.div, hemp, hl]

/-- C19 (the claim fails): `a:b:` has the entry point `a`, which contains no slash, and
the child `f` contains no slash or backslash, yet the name of `a:b:` joined with `f`
is `b:f`, not `f`. -/
theorem join_name_is_not_child :
    (path.lit "a:b:").entryPoint = .ok "a".toList ∧
    ((path.lit "a:b:").div "f".toList).str = "a:b:f".toList ∧
    ((path.lit "a:b:").div "f".toList).name = "b:f".toList ∧
    ((path.lit "a:b:").div "f".toList).name ≠ "f".toList := by
  decide

/-- C19 (amended): for every path `p` that has an entry point and every child string
`c`, `p / c` has the entry point of `p`, and its path part is the path part of `p`,
then a slash unless the string of `p` ends with a colon, then `c` with its
backslashes replaced; and when `c` contains no slash or backslash, the entry point
of `p` contains no slash, and the string of `p` does not end with a colon or the path
part of `p` is empty, the name of `p / c` is `c`. -/
theorem join_keeps_entry_point (s c : Str) (hs : ':' ∈ s) :
    ((path.new s).div c).entryPoint = (path.new s).entryPoint ∧
    ((path.new s).div c).pathPart
      = (path.new s).pathPart
        ++ (if (path.new s).str.getLast? = some ':' then [] else "/".toList)
        ++ replaceBackslashes c ∧
    ('/' ∉ c → backslash ∉ c → (∃ e, (path.new s).entryPoint = .ok e ∧ '/' ∉ e) →
      ((path.new s).str.getLast? ≠ some ':' ∨ (path.new s).pathPart = []) →
      ((path.new s).div c).name = c) := by
  obtain ⟨e0, r0, hsplit, he⟩ := List.eq_append_cons_of_mem hs
  subst hsplit
  have hstr := str_new_of_split e0 r0
  have hne : (path.new (e0 ++ ':' :: r0)).str ≠ [] := by
    rw [hstr]
    simp
  have hsl : path.normChar '/' = '/' := by decide
  rw [div_eq _ c hne]
  by_cases hl : (path.new (e0 ++ ':' :: r0)).str.getLast? = some ':'
  · simp only [if_pos hl]
    obtain ⟨h1, h2, h3, h4⟩ := new_append_views e0 r0 c he
    refine ⟨h3, ?_, ?_⟩
    · rw [h4, replaceBackslashes_eq]
      simp
    · intro hc1 hc2 hen hend
      have hpp : (path.new (e0 ++ ':' :: r0)).pathPart = [] := by
        rcases hend with h | h
        · exact absurd hl h
        · exact h
      rw [pathPart_new_of_split e0 r0 he] at hpp
      have hslash : '/' ∉ e0.map path.normChar := by
        obtain ⟨e, hee, hne⟩ := hen
        rw [entryPoint_new_of_split e0 r0 he] at hee
        cases hee
        exact hne
      have hcp := colonPos_new_of_split e0 r0 he
      rw [← h2] at hcp
      have h1' : (path.new ((path.new (e0 ++ ':' :: r0)).str ++ c)).str
          = e0.map path.normChar ++ ':' :: c := by
        rw [h1, hstr, hpp, map_normChar_of_not_mem c hc2]
        simp
      refine name_of_no_slash _ _ _ h1' hcp ?_
      rw [h1']
      have hcs : ('/' : Char) ≠ ':' := by decide
      simp [hslash, hc1, hcs]
  · simp only [if_neg hl]
    obtain ⟨h1, _, h3, h4⟩ := new_append_views e0 r0 ("/".toList ++ c) he
    refine ⟨h3, ?_, ?_⟩
    · rw [h4, replaceBackslashes_eq]
      simp [hsl]
    · intro hc1 hc2 _ _
      have h1' : (path.new ((path.new (e0 ++ ':' :: r0)).str ++ ("/".toList ++ c))).str
          = (path.new (e0 ++ ':' :: r0)).str ++ '/' :: c := by
        rw [h1]
        simp [hsl, map_normChar_of_not_mem c hc2]
      exact name_of_slash_split _ _ _ h1' hc1

/-- C19 (amended) at `res:textures` joined with `block.png`, and at `res:` joined with
`textures`. -/
theorem join_keeps_entry_point_witness :
    ((path.lit "res:textures").div "block.png".toList).name = "block.png".toList ∧
    ((path.lit "res:").div "textures".toList).name = "textures".toList :=
  ⟨(join_keeps_entry_point "res:textures".toList "block.png".toList (by decide)).2.2
      (by decide) (by decide) ⟨"res".toList, by decide⟩ (Or.inl (by decide)),
    (join_keeps_entry_point "res:".toList "textures".toList (by decide)).2.2
      (by decide) (by decide) ⟨"res".toList, by decide⟩ (Or.inr (by decide))⟩

end io

namespace render

/-! ## The particle budget of `Emitter::update` -/

theorem toInt_of_lt (q : ℚ) (h0 : 0 ≤ q) (h : q < 2147483648) :
    ∃ k, toInt q = some k ∧ 0 ≤ k := by
  have ht : trunc q = ⌊q⌋ := by simp only [trunc, if_pos h0]
  have h1 : 0 ≤ ⌊q⌋ := Int.floor_nonneg.2 h0
  have h2 : ⌊q⌋ < 2147483648 := Int.floor_lt.2 (by exact_mod_cast h)
  have hfit : INT_MIN ≤ ⌊q⌋ ∧ ⌊q⌋ ≤ INT_MAX := by
    simp only [INT_MIN, INT_MAX]
    constructor <;> omega
  refine ⟨⌊q⌋, ?_, h1⟩
  simp only [toInt, ht, if_pos hfit]

theorem toInt_of_large : toInt (2147483648 : ℚ) = none := by
  have h0 : (0 : ℚ) ≤ 2147483648 := by norm_num
  have hfl : ⌊(2147483648 : ℚ)⌋ = 2147483648 := by
    rw [Int.floor_eq_iff]
    constructor <;> norm_num
  have hno : ¬ (INT_MIN ≤ (2147483648 : Int) ∧ (2147483648 : Int) ≤ INT_MAX) := by
    simp only [INT_MIN, INT_MAX]
    omega
  simp only [toInt, trunc, if_pos h0, hfl, if_neg hno]

theorem update_of_failed_conversion (w : World) (fuel : Nat) (delta : ℚ) (cam : vec3)
    (x : Sim) (hpos : 0 < x.emitter.count)
    (hfar : distance2 (originPosition w x.emitter) cam
      > x.emitter.maxDistance * x.emitter.maxDistance)
    (hsi : ¬ x.emitter.spawnInterval < FLT_EPSILON)
    (hto : toInt (x.emitter.timer / x.emitter.spawnInterval) = none) :
    update w fuel delta cam x = .undefined := by
  have hearly : ¬ (x.emitter.count = 0 ∨
      (x.emitter.count = -1 ∧ x.emitter.spawnInterval < FLT_EPSILON)) := by
    rintro (h | ⟨h, _⟩) <;> omega
  simp only [update, if_neg hearly, if_pos hfar, if_pos hpos, if_neg hsi, hto]

theorem spawn_count (w : World) (pos : vec3) (x : Sim) :
    (spawn w pos x).emitter.count
      = if 0 < x.emitter.count then x.emitter.count - 1 else x.emitter.count := rfl

theorem spawn_timer (w : World) (pos : vec3) (x : Sim) :
    (spawn w pos x).emitter.timer = x.emitter.timer - x.emitter.spawnInterval := rfl

theorem spawn_spawnInterval (w : World) (pos : vec3) (x : Sim) :
    (spawn w pos x).emitter.spawnInterval = x.emitter.spawnInterval := rfl

theorem spawn_particles (w : World) (pos : vec3) (x : Sim) :
    ∃ particle, (spawn w pos x).particles = x.particles ++ [particle] := ⟨_, rfl⟩

theorem spawnLoop_of_budget (w : World) (pos : vec3) (n : Nat) (x : Sim)
    (h0 : 0 ≤ x.emitter.count) (hn : x.emitter.count ≤ n) :
    ∃ y, spawnLoop w pos n x = some y ∧ 0 ≤ y.emitter.count ∧
      y.emitter.count ≤ x.emitter.count ∧
      (y.particles.length : Int)
        = (x.particles.length : Int) + (x.emitter.count - y.emitter.count) ∧
      x.particles <+: y.particles := by
  induction n generalizing x with
  | zero =>
    have hc : x.emitter.count = 0 := by
      have : x.emitter.count ≤ 0 := by exact_mod_cast hn
      omega
    refine ⟨x, ?_, h0, le_refl _, by simp, List.prefix_refl _⟩
    simp [spawnLoop, hc]
  | succ n ih =>
    by_cases hcond : x.emitter.count ≠ 0 ∧ x.emitter.timer > x.emitter.spawnInterval
    · have hpos : 0 < x.emitter.count := lt_of_le_of_ne h0 (Ne.symm hcond.1)
      have hsc : (spawn w pos x).emitter.count = x.emitter.count - 1 := by
        rw [spawn_count, if_pos hpos]
      have hn' : x.emitter.count ≤ (n : Int) + 1 := by exact_mod_cast hn
      obtain ⟨y, hy, hy0, hyle, hlen, hpre⟩ :=
        ih (spawn w pos x) (by rw [hsc]; omega) (by rw [hsc]; omega)
      obtain ⟨particle, hp⟩ := spawn_particles w pos x
      refine ⟨y, ?_, hy0, ?_, ?_, ?_⟩
      · simp only [spawnLoop, if_pos hcond]
        exact hy
      · rw [hsc] at hyle
        omega
      · rw [hsc, hp] at hlen
        simp only [List.length_append, List.length_singleton, Nat.cast_add, Nat.cast_one]
          at hlen
        omega
      · rw [hp] at hpre
        exact List.IsPrefix.trans (List.prefix_append _ _) hpre
    · refine ⟨x, ?_, h0, le_refl _, by simp, List.prefix_refl _⟩
      simp only [spawnLoop, if_neg hcond]

theorem spawnLoop_of_endless (w : World) (pos : vec3) (n : Nat) (x : Sim)
    (hc : x.emitter.count = -1) (hsi : 0 < x.emitter.spawnInterval)
    (ht : x.emitter.timer ≤ ((n : ℚ) + 1) * x.emitter.spawnInterval) :
    ∃ y, spawnLoop w pos n x = some y ∧ y.emitter.count = -1 := by
  induction n generalizing x with
  | zero =>
    have hle : ¬ x.emitter.timer > x.emitter.spawnInterval := by
      simp only [Nat.cast_zero, zero_add, one_mul] at ht
      exact not_lt.2 ht
    refine ⟨x, ?_, hc⟩
    simp [spawnLoop, hle]
  | succ n ih =>
    by_cases hcond : x.emitter.count ≠ 0 ∧ x.emitter.timer > x.emitter.spawnInterval
    · have hsc : (spawn w pos x).emitter.count = -1 := by
        rw [spawn_count, hc]
        simp
      have hst : (spawn w pos x).emitter.timer
          ≤ ((n : ℚ) + 1) * (spawn w pos x).emitter.spawnInterval := by
        rw [spawn_timer, spawn_spawnInterval]
        push_cast at ht
        linarith
      obtain ⟨y, hy, hyc⟩ := ih (spawn w pos x) hsc (by rw [spawn_spawnInterval]; exact hsi) hst
      refine ⟨y, ?_, hyc⟩
      simp only [spawnLoop, if_pos hcond]
      exact hy
    · refine ⟨x, ?_, hc⟩
      simp only [spawnLoop, if_neg hcond]

theorem FLT_EPSILON_pos : 0 < FLT_EPSILON := by
  unfold FLT_EPSILON
  norm_num

theorem inRange_eq_false (w : World) (cam : vec3) (e : Emitter)
    (h : distance2 (originPosition w e) cam > e.maxDistance * e.maxDistance) :
    inRange w cam e = false := by
  simp [inRange, h]

theorem inRange_eq_true (w : World) (cam : vec3) (e : Emitter)
    (h : ¬ distance2 (originPosition w e) cam > e.maxDistance * e.maxDistance) :
    inRange w cam e = true := by
  simp only [inRange, decide_eq_true_eq]
  exact h

/-- C20 (the claim fails): an emitter with count 5, one particle per second and a
timer of 2147483648 seconds, out of range of the camera, meets the conditions of the
claim (timer and `delta` not negative, positive count), yet `update` ends in the
conversion of the quotient 2147483648 to `int`, which an `int` cannot hold: the call
has no defined result, so no count after the call, whatever the fuel. -/
theorem update_undefined_on_large_quotient :
    (0 : ℚ) ≤ sim1.emitter.timer ∧ 0 < sim1.emitter.count ∧
    inRange world0 (100, 0, 0) sim1.emitter = false ∧
    sim1.emitter.timer / sim1.emitter.spawnInterval = 2147483648 ∧
    (∀ fuel, update world0 fuel 0 (100, 0, 0) sim1 = .undefined) ∧
    ¬ (∃ y, update world0 5 0 (100, 0, 0) sim1 = .done y ∧
        0 ≤ y.emitter.count ∧ y.emitter.count ≤ sim1.emitter.count) := by
  have hfar : distance2 (originPosition world0 sim1.emitter) (100, 0, 0)
      > sim1.emitter.maxDistance * sim1.emitter.maxDistance := by
    norm_num [distance2, originPosition, sim1, emitter0]
  have hq : sim1.emitter.timer / sim1.emitter.spawnInterval = 2147483648 := by
    norm_num [sim1, emitter0]
  have hsi : ¬ sim1.emitter.spawnInterval < FLT_EPSILON := by
    norm_num [sim1, emitter0, FLT_EPSILON]
  have hpos : 0 < sim1.emitter.count := by decide
  have hto : toInt (sim1.emitter.timer / sim1.emitter.spawnInterval) = none := by
    rw [hq]
    exact toInt_of_large
  have hund : ∀ fuel, update world0 fuel 0 (100, 0, 0) sim1 = .undefined :=
    fun fuel => update_of_failed_conversion world0 fuel 0 (100, 0, 0) sim1 hpos hfar hsi hto
  refine ⟨by norm_num [sim1, emitter0], hpos, inRange_eq_false _ _ _ hfar, hq, hund, ?_⟩
  rintro ⟨y, hy, _⟩
  rw [hund 5] at hy
  cases hy

/-- C20 (amended): with the timer and `delta` not negative at entry and the floats
taken as exact rationals, `update` on a dead emitter (count 0) returns at once and
changes nothing. On an emitter with a positive count, provided the quotient of timer
and `spawnInterval` is below 2147483648 whenever the emitter is out of range with
`spawnInterval` at least `FLT_EPSILON` (the case that converts it to `int`), `update`
returns, once the loop is given at least `count` iterations, and leaves a count
between 0 and the count before, having appended exactly as many particles as the
count decreased when the emitter is in range and none when it is out of range. On an
emitter with count -1 it returns, once the loop is given enough iterations, and the
count is still -1. -/
theorem update_keeps_budget (w : World) (delta : ℚ) (cam : vec3) (x : Sim)
    (ht : 0 ≤ x.emitter.timer) (_hd : 0 ≤ delta) :
    (x.emitter.count = 0 →
      ∀ fuel, update w fuel delta cam x = .done x ∧ isDead x.emitter = true) ∧
    (0 < x.emitter.count →
      (inRange w cam x.emitter = false → FLT_EPSILON ≤ x.emitter.spawnInterval →
        x.emitter.timer / x.emitter.spawnInterval < 2147483648) →
      ∀ fuel : Nat, x.emitter.count ≤ fuel →
      ∃ y, update w fuel delta cam x = .done y ∧
        0 ≤ y.emitter.count ∧ y.emitter.count ≤ x.emitter.count ∧
        (inRange w cam x.emitter = true →
          (y.particles.length : Int)
            = (x.particles.length : Int) + (x.emitter.count - y.emitter.count) ∧
          x.particles <+: y.particles) ∧
        (inRange w cam x.emitter = false → y.particles = x.particles)) ∧
    (x.emitter.count = -1 → ∃ fuel0 : Nat, ∀ fuel, fuel0 ≤ fuel →
      ∃ y, update w fuel delta cam x = .done y ∧ y.emitter.count = -1) := by
  refine ⟨?_, ?_, ?_⟩
  · intro hc fuel
    simp [update, hc, isDead]
  · intro hpos hquot fuel hfuel
    have hearly : ¬ (x.emitter.count = 0 ∨
        (x.emitter.count = -1 ∧ x.emitter.spawnInterval < FLT_EPSILON)) := by
      rintro (h | ⟨h, _⟩) <;> omega
    by_cases hfar : distance2 (originPosition w x.emitter) cam
        > x.emitter.maxDistance * x.emitter.maxDistance
    · have hout := inRange_eq_false w cam x.emitter hfar
      by_cases hsi : x.emitter.spawnInterval < FLT_EPSILON
      · refine ⟨{ x with emitter := { x.emitter with count := 0 } }, ?_, le_refl _,
          le_of_lt hpos, ?_, fun _ => rfl⟩
        · simp only [update, if_neg hearly, if_pos hfar, if_pos hpos, if_pos hsi]
        · intro hin
          rw [hout] at hin
          cases hin
      · have hsipos : 0 < x.emitter.spawnInterval :=
          lt_of_lt_of_le FLT_EPSILON_pos (not_lt.1 hsi)
        obtain ⟨skipped, hsk, hskip⟩ :=
          toInt_of_lt (x.emitter.timer / x.emitter.spawnInterval)
            (div_nonneg ht (le_of_lt hsipos)) (hquot hout (not_lt.1 hsi))
        refine ⟨{ x with emitter :=
            { x.emitter with
              count := max 0 (x.emitter.count - skipped)
              timer := x.emitter.timer - skipped * x.emitter.spawnInterval } },
          ?_, ?_, ?_, ?_, fun _ => rfl⟩
        · simp only [update, if_neg hearly, if_pos hfar, if_pos hpos, if_neg hsi, hsk]
        · exact le_max_left _ _
        · exact max_le (le_of_lt hpos) (by omega)
        · intro hin
          rw [hout] at hin
          cases hin
    · have hin := inRange_eq_true w cam x.emitter hfar
      obtain ⟨y, hy, hy0, hyle, hlen, hpre⟩ :=
        spawnLoop_of_budget w (originPosition w x.emitter) fuel
          { x with emitter := { x.emitter with timer := x.emitter.timer + delta } }
          (le_of_lt hpos) hfuel
      refine ⟨y, ?_, hy0, hyle, fun _ => ⟨hlen, hpre⟩, ?_⟩
      · simp only [update, if_neg hearly, if_neg hfar, hy]
      · intro hout
        rw [hin] at hout
        cases hout
  · intro hc
    by_cases hsi : x.emitter.spawnInterval < FLT_EPSILON
    · refine ⟨0, fun fuel _ => ⟨x, ?_, hc⟩⟩
      simp [update, hc, hsi]
    · have hsipos : 0 < x.emitter.spawnInterval :=
        lt_of_lt_of_le FLT_EPSILON_pos (not_lt.1 hsi)
      have hearly : ¬ (x.emitter.count = 0 ∨
          (x.emitter.count = -1 ∧ x.emitter.spawnInterval < FLT_EPSILON)) := by
        rintro (h | ⟨_, h⟩)
        · omega
        · exact hsi h
      have hnpos : ¬ 0 < x.emitter.count := by omega
      by_cases hfar : distance2 (originPosition w x.emitter) cam
          > x.emitter.maxDistance * x.emitter.maxDistance
      · refine ⟨0, fun fuel _ => ⟨x, ?_, hc⟩⟩
        simp only [update, if_neg hearly, if_pos hfar, if_neg hnpos]
      · obtain ⟨n, hn⟩ := exists_nat_ge ((x.emitter.timer + delta) / x.emitter.spawnInterval)
        have hn' : x.emitter.timer + delta ≤ (n : ℚ) * x.emitter.spawnInterval :=
          (div_le_iff₀ hsipos).1 hn
        refine ⟨n, fun fuel hfuel => ?_⟩
        have hfq : (n : ℚ) ≤ (fuel : ℚ) := by exact_mod_cast hfuel
        have hbound : x.emitter.timer + delta
            ≤ ((fuel : ℚ) + 1) * x.emitter.spawnInterval := by
          have h1 : (n : ℚ) * x.emitter.spawnInterval
              ≤ ((fuel : ℚ) + 1) * x.emitter.spawnInterval :=
            mul_le_mul_of_nonneg_right (by linarith) (le_of_lt hsipos)
          linarith
        obtain ⟨y, hy, hyc⟩ :=
          spawnLoop_of_endless w (originPosition w x.emitter) fuel
            { x with emitter := { x.emitter with timer := x.emitter.timer + delta } }
            hc hsipos hbound
        refine ⟨y, ?_, hyc⟩
        simp only [update, if_neg hearly, if_neg hfar, hy]

/-- C20 (amended) on an emitter with one particle per second, a timer of a quarter
second and a step of two and a half seconds: with count 0; with count 5 at the camera
and with count 5 out of range of the camera; and with count -1. -/
theorem update_keeps_budget_witness :
    (∀ fuel, update world0 fuel (5 / 2) (0, 0, 0) (sim0 0) = .done (sim0 0) ∧
      isDead (sim0 0).emitter = true) ∧
    (∃ y, update world0 5 (5 / 2) (0, 0, 0) (sim0 5) = .done y ∧
      0 ≤ y.emitter.count ∧ y.emitter.count ≤ (sim0 5).emitter.count ∧
      (inRange world0 (0, 0, 0) (sim0 5).emitter = true →
        (y.particles.length : Int)
          = ((sim0 5).particles.length : Int) + ((sim0 5).emitter.count - y.emitter.count) ∧
        (sim0 5).particles <+: y.particles) ∧
      (inRange world0 (0, 0, 0) (sim0 5).emitter = false →
        y.particles = (sim0 5).particles)) ∧
    (∃ y, update world0 5 (5 / 2) (100, 0, 0) (sim0 5) = .done y ∧
      0 ≤ y.emitter.count ∧ y.emitter.count ≤ (sim0 5).emitter.count ∧
      (inRange world0 (100, 0, 0) (sim0 5).emitter = true →
        (y.particles.length : Int)
          = ((sim0 5).particles.length : Int) + ((sim0 5).emitter.count - y.emitter.count) ∧
        (sim0 5).particles <+: y.particles) ∧
      (inRange world0 (100, 0, 0) (sim0 5).emitter = false →
        y.particles = (sim0 5).particles)) ∧
    (∃ fuel0 : Nat, ∀ fuel, fuel0 ≤ fuel →
      ∃ y, update world0 fuel (5 / 2) (0, 0, 0) (sim0 (-1)) = .done y ∧
        y.emitter.count = -1) :=
  ⟨(update_keeps_budget world0 (5 / 2) (0, 0, 0) (sim0 0)
      (by norm_num [sim0, emitter0]) (by norm_num)).1 rfl,
    (update_keeps_budget world0 (5 / 2) (0, 0, 0) (sim0 5)
      (by norm_num [sim0, emitter0]) (by norm_num)).2.1 (by decide)
      (fun _ _ => by norm_num [sim0, emitter0]) 5 (by decide),
    (update_keeps_budget world0 (5 / 2) (100, 0, 0) (sim0 5)
      (by norm_num [sim0, emitter0]) (by norm_num)).2.1 (by decide)
      (fun _ _ => by norm_num [sim0, emitter0]) 5 (by decide),
    (update_keeps_budget world0 (5 / 2) (0, 0, 0) (sim0 (-1))
      (by norm_num [sim0, emitter0]) (by norm_num)).2.2 rfl⟩

end render
